import Mathlib

/-!
# PICnc (GRBL pinout) — host driver and firmware main loop

A shallow embedding of `src/HAL/picnc_grbl.c` (the host side real-time driver:
`read_spi`, `update`, `update_outputs`, `debounce`, `update_inputs`) and of
`src/firmware/main.c` (the firmware main loop and its command dispatcher).

Conventions of the embedding

* `double`/`float` quantities are rationals (`ℚ`); rounding is not modelled.
  A division by zero takes the value `0` (the convention of `ℚ`); every theorem
  that depends on a quotient carries the hypotheses that make the divisor
  non-zero, or holds whatever the quotient is.
* 32-bit words of the SPI frames are natural numbers (bit patterns); signed
  32-bit and 64-bit integers are integers wrapped explicitly by `wrap32`, `wrap64`.
* The header `picnc_grbl.h` is not part of the sources at hand: its constants
  `STEP_MASK`, `VELSCALE` and its accessor macros `get_position`, `update_velocity`
  are parameters (`Consts`); the number of axes is the length of the list of axes.
* The step generator `stepgen.c` of the firmware is not part of the sources either;
  the four functions of it that the main loop calls are modelled from the spec.
* Static and global variables become fields of an explicit state record which
  every function takes and returns.
-/

namespace PiCnc

/-! ## Host driver: data -/

/-- What the driver takes from the missing header `picnc_grbl.h`: the constants
`STEP_MASK` and `VELSCALE`, the accessor `get_position(i)`, which yields the signed
32-bit counter sample of axis `i` from the received frame, and `update_velocity(i, v)`,
which stores the velocity command `v` of axis `i` into the frame to transmit. -/
structure Consts where
  STEP_MASK : ℚ
  VELSCALE : ℚ
  get_position : List Nat → Nat → Int
  update_velocity : List Nat → Nat → ℚ → List Nat

/-- All per-axis variables of the driver: the pins and parameters of `data_t` indexed by
the axis, and the static arrays `scale_inv`, `old_vel`, `old_pos`, `old_scale`,
`old_count`, `accum`. -/
structure Axis where
  position_cmd : ℚ
  position_fb : ℚ
  scale : ℚ
  maxaccel : ℚ
  scale_inv : ℚ
  old_vel : ℚ
  old_pos : ℚ
  old_scale : ℚ
  old_count : Int
  accum : Int
  deriving DecidableEq

/-- The `>CM1` tag, `0x314D433E`. -/
def CM1 : Nat := 0x314D433E

/-- The `>CM2` tag, `0x324D433E`. -/
def CM2 : Nat := 0x324D433E

/-- The `>RST` tag, `0x5453523E`. -/
def RST : Nat := 0x5453523E

/-- The `>CFG` tag, `0x4746433E`. -/
def CFG : Nat := 0x4746433E

/-- The `>TST` tag, `0x5453543E`. -/
def TST : Nat := 0x5453543E

/-- The expression `w ^ ~0` on a 32-bit word: every bit inverted. -/
def compl32 (w : Nat) : Nat := w ^^^ 0xFFFFFFFF

/-- Two's complement wrap of an integer to the range of `s32`. -/
def wrap32 (x : Int) : Int := (x + 2 ^ 31) % 2 ^ 32 - 2 ^ 31

/-- Two's complement wrap of an integer to the range of `s64`. -/
def wrap64 (x : Int) : Int := (x + 2 ^ 63) % 2 ^ 64 - 2 ^ 63

/-- The bit pattern of a signed integer as a 32-bit word. -/
def toWord (x : Int) : Nat := (x % 2 ^ 32).toNat

/-- Conversion of a `double` to an integer type: truncation toward zero. -/
def trunc (q : ℚ) : Int := if 0 ≤ q then ⌊q⌋ else ⌈q⌉

/-! ## Host driver: the velocity planner `update` -/

/-- The frequency limit, applied in `update` to `vel_cmd` (lines 387-391) and to
`new_vel` (lines 440-444). -/
def freq_limit (max_vel v : ℚ) : ℚ :=
  if v > max_vel then max_vel
  else if v < -max_vel then -max_vel
  else v

/-- Lines 363-378 of `update`: the acceleration limit of the cycle and the
normalised parameter. Returns `(max_accl, maxaccel)`. -/
def accel_limit (max_vel recip_dt maxaccel scale : ℚ) : ℚ × ℚ :=
  let max_accl := max_vel * recip_dt
  if maxaccel ≤ 0 then
    (max_accl, 0)
  else if maxaccel * |scale| > max_accl then
    (max_accl, max_accl / |scale|)
  else
    (maxaccel * |scale|, maxaccel)

/-- Lines 383-444 of `update`: the velocity chosen for the cycle, from the
acceleration limit `max_accl`, the position command in counts `pos_cmd`, the
planner memory `old_pos`, `old_vel` and the accumulator. -/
def plan_vel (k : Consts) (max_vel dt recip_dt max_accl pos_cmd old_pos old_vel : ℚ)
    (accum : Int) : ℚ :=
  let vel_cmd := freq_limit max_vel ((pos_cmd - old_pos) * recip_dt)
  let match_accl := if vel_cmd > old_vel then max_accl else -max_accl
  let match_time := (vel_cmd - old_vel) / match_accl
  let avg_v := (vel_cmd + old_vel) * (1 / 2)
  let curr_pos := (accum : ℚ) * (1 / k.STEP_MASK)
  let est_out := curr_pos + avg_v * match_time
  let est_cmd := pos_cmd + vel_cmd * (match_time - (3 / 2) * dt)
  let est_err := est_out - est_cmd
  let new_vel :=
    if match_time < dt then
      if |est_err| < 1 / 10000 then
        vel_cmd
      else
        let nv := vel_cmd - (1 / 2) * est_err * recip_dt
        if nv > old_vel + max_accl * dt then old_vel + max_accl * dt
        else if nv < old_vel - max_accl * dt then old_vel - max_accl * dt
        else nv
    else
      let dv := -2 * match_accl * dt
      let dp := dv * match_time
      let match_accl1 := if |est_err + dp * 2| < |est_err| then -match_accl else match_accl
      old_vel + match_accl1 * dt
  freq_limit max_vel new_vel

/-- The body of the loop of `update` for one axis. -/
def update_axis (k : Consts) (max_vel dt recip_dt : ℚ) (a : Axis) : Axis :=
  let lim := accel_limit max_vel recip_dt a.maxaccel a.scale
  let pos_cmd := a.position_cmd * a.scale
  let new_vel := plan_vel k max_vel dt recip_dt lim.1 pos_cmd a.old_pos a.old_vel a.accum
  { a with maxaccel := lim.2, old_pos := pos_cmd, old_vel := new_vel }

/-- The argument `new_vel * VELSCALE` that the loop of `update` hands to
`update_velocity` for one axis. -/
def vel_arg (k : Consts) (max_vel dt recip_dt : ℚ) (a : Axis) : ℚ :=
  (update_axis k max_vel dt recip_dt a).old_vel * k.VELSCALE

/-- The driver state: the pins and parameters of `data_t` that are not per axis, the
frame buffers, the globals `pwm_period`, `dt`, `recip_dt`, `max_vel`, `old_dtns`, the
static `startup` of `read_spi` and the statics `B`, `C`, `Z` of `debounce`. The global
`accum_diff` is a temporary that is written before it is read, see `count_diff`. -/
structure Host where
  axes : List Axis
  pwm_duty : ℚ
  pwm_scale : ℚ
  motor_enable : Bool
  spindle_enable : Bool
  coolant_enable : Bool
  lim_x : Bool
  lim_y : Bool
  lim_z : Bool
  abort : Bool
  hold : Bool
  resume : Bool
  ready : Bool
  spi_fault : Bool
  test : Nat
  txBuf : List Nat
  rxBuf : List Nat
  pwm_period : Nat
  dt : ℚ
  recip_dt : ℚ
  max_vel : ℚ
  old_dtns : Int
  startup : Nat
  B : Nat
  C : Nat
  Z : Nat

/-- The loop of `update` over the axes, as far as the frame to transmit goes: axis `i`
hands its velocity command to `update_velocity`. -/
def update_vels (k : Consts) (max_vel dt recip_dt : ℚ) : List Nat → Nat → List Axis → List Nat
  | tx, _, [] => tx
  | tx, i, a :: rest =>
    update_vels k max_vel dt recip_dt (k.update_velocity tx i (vel_arg k max_vel dt recip_dt a))
      (i + 1) rest

/-- The function `update`: the planner runs on every axis, then the frame is tagged `>CM1`. -/
def update (k : Consts) (s : Host) : Host :=
  { s with
    axes := s.axes.map (update_axis k s.max_vel s.dt s.recip_dt)
    txBuf := (update_vels k s.max_vel s.dt s.recip_dt s.txBuf 0 s.axes).set 0 CM1 }

/-! ## Host driver: inputs, outputs and `read_spi` -/

/-- The function `debounce` on its statics `(B, C, Z)` and the sample `A`: the new
statics and the returned value `Z`. -/
def debounce (st : Nat × Nat × Nat) (A : Nat) : (Nat × Nat × Nat) × Nat :=
  let B := st.1
  let C := st.2.1
  let Z := st.2.2
  let Z1 := (Z &&& (A ||| B ||| C)) ||| (A &&& B &&& C)
  ((A, B, Z1), Z1)

/-- The function `update_inputs`: the input word `rxBuf[1]` is debounced and its low
six bits drive the input pins. -/
def update_inputs (s : Host) : Host :=
  let r := debounce (s.B, s.C, s.Z) (s.rxBuf.getD 1 0)
  let x := r.2
  { s with
    B := r.1.1, C := r.1.2.1, Z := r.1.2.2
    abort := decide (x &&& 0b0000001 ≠ 0)
    hold := decide (x &&& 0b0000010 ≠ 0)
    resume := decide (x &&& 0b0000100 ≠ 0)
    lim_x := decide (x &&& 0b0001000 ≠ 0)
    lim_y := decide (x &&& 0b0010000 ≠ 0)
    lim_z := decide (x &&& 0b0100000 ≠ 0) }

/-- The enable-bits word that `update_outputs` of the driver stores in `txBuf[1]`. -/
def enable_word (motor_enable spindle_enable coolant_enable : Bool) : Nat :=
  (((if motor_enable then 1 else 0) <<< 0) ||| ((if spindle_enable then 1 else 0) <<< 1))
    ||| ((if coolant_enable then 1 else 0) <<< 2)

/-- The duty of `update_outputs`, limited to `[0, 1]`. -/
def pwm_duty_limited (pwm_duty pwm_scale : ℚ) : ℚ :=
  let duty := pwm_duty * pwm_scale * (1 / 100)
  let duty1 := if duty < 0 then 0 else duty
  if duty1 > 1 then 1 else duty1

/-- The function `update_outputs` of the driver. -/
def update_outputs (s : Host) : Host :=
  let tx1 := s.txBuf.set 1 (enable_word s.motor_enable s.spindle_enable s.coolant_enable)
  let duty := pwm_duty_limited s.pwm_duty s.pwm_scale
  { s with txBuf := tx1.set 2 (toWord (trunc (duty * (1 + (s.pwm_period : ℚ))))) }

/-- Lines 305-309 of `read_spi`: a change of the thread period renews `dt` and `recip_dt`. -/
def period_check (period : Int) (s : Host) : Host :=
  if period ≠ s.old_dtns then
    { s with old_dtns := period, dt := (period : ℚ) * (1 / 1000000000),
             recip_dt := 1 / ((period : ℚ) * (1 / 1000000000)) }
  else s

/-- Lines 313-319 of `read_spi` for one axis: the check for a change of `scale`. -/
def scale_check (k : Consts) (a : Axis) : Axis :=
  if a.scale ≠ a.old_scale then
    let scale1 := if a.scale < 1 / 10 ^ 20 ∧ a.scale > -(1 / 10 ^ 20) then 1 else a.scale
    { a with old_scale := a.scale, scale := scale1, scale_inv := (1 / k.STEP_MASK) / scale1 }
  else a

/-- Lines 325-333 of `read_spi`: the sanity check of word 0 of the reply. -/
def sanity_check (s : Host) : Host :=
  if s.rxBuf.getD 0 0 = compl32 CM1 then
    { s with ready := true }
  else if s.startup = 0 then
    { s with ready := false, startup := 1 }
  else
    { s with ready := false, spi_fault := true }

/-- The value of the temporary `accum_diff` (line 339): the difference of the counter
sample and the remembered sample, in signed 32-bit arithmetic. -/
def count_diff (sample old_count : Int) : Int := wrap32 (sample - old_count)

/-- Lines 339-343 of `read_spi` for one axis, `sample` being `get_position(i)`. -/
def accumulate (sample : Int) (a : Axis) : Axis :=
  let accum1 := wrap64 (a.accum + count_diff sample a.old_count)
  { a with old_count := wrap32 sample, accum := accum1,
           position_fb := (accum1 : ℚ) * a.scale_inv }

/-- The loop of lines 336-344 over the axes, axis `i` taking `get_position(i)`. -/
def accumulate_axes (k : Consts) (rx : List Nat) : Nat → List Axis → List Axis
  | _, [] => []
  | i, a :: rest => accumulate (k.get_position rx i) a :: accumulate_axes k rx (i + 1) rest

/-- The function `read_spi`. The two calls of `read_buf` deliver the frames `rx1` and
`rx2`; `write_buf` transmits `txBuf` and leaves the driver state alone. -/
def read_spi (k : Consts) (rx1 rx2 : List Nat) (period : Int) (s : Host) : Host :=
  let s1 := update_inputs { s with rxBuf := rx1 }
  let s2 := { s1 with test := s1.rxBuf.getD 2 0 }
  let s3 := update_outputs { s2 with txBuf := s2.txBuf.set 0 CM2 }
  let s4 := period_check period s3
  let s5 := { s4 with axes := s4.axes.map (scale_check k) }
  let s6 := sanity_check { s5 with rxBuf := rx2 }
  { s6 with axes := accumulate_axes k s6.rxBuf 0 s6.axes }

/-- The driver state after a sequence of `read_spi` cycles; a cycle is given by the two
frames it reads and the period it is called with. -/
def read_spi_run (k : Consts) : List (List Nat × List Nat × Int) → Host → Host
  | [], s => s
  | c :: rest, s => read_spi_run k rest (read_spi k c.1 c.2.1 c.2.2 s)

/-! ## Firmware: the main loop of `main.c` -/

namespace Fw

/-- The constant `SPIBUFSIZE / 4`. -/
def BUFSIZE : Nat := 20 / 4

/-- The constant `UPDATE_CYCLE`. -/
def UPDATE_CYCLE : Int := 300

/-- The constant `SPI_TIMEOUT`. -/
def SPI_TIMEOUT : Nat := 1000

/-- The constant `MAXGEN` of `stepgen.h`. -/
def MAXGEN : Nat := 4

/-- Modelled from the spec: the step generator `stepgen.c` is not among the sources,
only its header is. Its state as the main loop sees it: one velocity command and one
pulse counter per generator, and the configured step width. The interrupt routine
`stepgen`, which advances the counters, is outside this model. -/
structure Stepgen where
  velocity : List Nat
  position : List Nat
  stepwidth : Nat
  deriving DecidableEq

/-- Modelled from the spec: `stepgen_reset` of the missing `stepgen.c`, the part of the
full board reset that clears the velocity commands and the pulse counters. -/
def stepgen_reset (g : Stepgen) : Stepgen :=
  { g with velocity := List.replicate MAXGEN 0, position := List.replicate MAXGEN 0 }

/-- Modelled from the spec: `stepgen_update_input` of the missing `stepgen.c`, which
takes one velocity command per axis from the payload starting at `buf`. -/
def stepgen_update_input (buf : List Nat) (g : Stepgen) : Stepgen :=
  { g with velocity := (List.range MAXGEN).map (fun i => buf.getD i 0) }

/-- Modelled from the spec: `stepgen_update_stepwidth` of the missing `stepgen.c`,
which takes the step-width divisor of a `>CFG` frame. -/
def stepgen_update_stepwidth (w : Nat) (g : Stepgen) : Stepgen :=
  { g with stepwidth := w }

/-- Modelled from the spec: `stepgen_get_position` of the missing `stepgen.c`, which
copies the pulse counters into the words of the frame starting at index `at0`. -/
def stepgen_get_position (g : Stepgen) (at0 : Nat) (buf : List Nat) : List Nat :=
  (List.range MAXGEN).foldl (fun b i => b.set (at0 + i) (g.position.getD i 0)) buf

/-- The state of the firmware main loop: the frame buffers, the locals of `main`
(`spi_timeout`, `cycles`, `j`, `counter`, `last_cmd`), the flag `spi_data_ready`, the
outputs it drives (enable lines, the PWM registers `OC3RS` and `PR2`, the LED), the step
generator, and `recoveries`, which counts the runs of the timeout recovery block. -/
structure State where
  rxBuf : List Nat
  txBuf : List Nat
  spi_data_ready : Bool
  spi_timeout : Nat
  last_cmd : Nat
  counter : Nat
  cycles : Int
  j : Int
  MOTOR_EN : Bool
  SPINDLE_EN : Bool
  COOLANT_EN : Bool
  OC3RS : Nat
  PR2 : Nat
  LED : Bool
  stepgen : Stepgen
  recoveries : Nat
  deriving DecidableEq

/-- What the hardware presents to one iteration of the main loop: the content of
`rxBuf` as the DMA channel has filled it, the half-full and full flags of that channel,
the busy flag of the bus, and the six input lines. -/
structure Input where
  rx : List Nat
  CHDHIF : Bool
  CHBCIF : Bool
  SPIBUSY : Bool
  ABORT_IN : Bool
  HOLD_IN : Bool
  RESUME_IN : Bool
  LIM_X_IN : Bool
  LIM_Y_IN : Bool
  LIM_Z_IN : Bool
  deriving DecidableEq

/-- The function `read_inputs`. -/
def read_inputs (i : Input) : Nat :=
  ((if i.ABORT_IN then 1 else 0) <<< 0) ||| ((if i.HOLD_IN then 1 else 0) <<< 1)
    ||| ((if i.RESUME_IN then 1 else 0) <<< 2) ||| ((if i.LIM_X_IN then 1 else 0) <<< 3)
    ||| ((if i.LIM_Y_IN then 1 else 0) <<< 4) ||| ((if i.LIM_Z_IN then 1 else 0) <<< 5)

/-- The function `update_outputs` of the firmware. -/
def update_outputs (x : Nat) (f : State) : State :=
  { f with
    MOTOR_EN := decide (x &&& (1 <<< 0) ≠ 0)
    SPINDLE_EN := decide (x &&& (1 <<< 1) ≠ 0)
    COOLANT_EN := decide (x &&& (1 <<< 2) ≠ 0) }

/-- The function `update_pwm_duty`. -/
def update_pwm_duty (val : Nat) (f : State) : State := { f with OC3RS := val }

/-- The function `update_pwm_period`. -/
def update_pwm_period (val : Nat) (f : State) : State := { f with PR2 := val }

/-- The function `reset_board`. -/
def reset_board (f : State) : State :=
  update_pwm_duty 0 (update_outputs 0 { f with stepgen := stepgen_reset f.stepgen })

/-- Lines 229-232 of `main`: while the last command is `>CM1` the cycles are counted,
and the position is captured into the reply when the count stands at `UPDATE_CYCLE`. -/
def count_cycles (f : State) : State :=
  if f.last_cmd = CM1 then
    let f1 := if f.cycles = UPDATE_CYCLE then
        { f with txBuf := stepgen_get_position f.stepgen 1 f.txBuf }
      else f
    { f1 with cycles := wrap32 (f.cycles + 1) }
  else f

/-- Lines 234-264 of `main`: the dispatch of a completed frame. -/
def dispatch (i : Input) (f : State) : State :=
  if f.spi_data_ready then
    let f0 := { f with spi_data_ready := false }
    let w := f0.rxBuf.getD 0 0
    let f1 :=
      if w = RST then
        reset_board f0
      else if w = CM1 then
        { f0 with stepgen := stepgen_update_input (f0.rxBuf.drop 1) f0.stepgen,
                  j := f0.cycles, cycles := 0 }
      else if w = CM2 then
        let f2 := update_pwm_duty (f0.rxBuf.getD 2 0) (update_outputs (f0.rxBuf.getD 1 0) f0)
        { f2 with txBuf := (f2.txBuf.set 1 (read_inputs i)).set 2 (toWord f2.j) }
      else if w = CFG then
        let f2 := update_pwm_period (f0.rxBuf.getD 2 0)
          { f0 with stepgen := stepgen_update_stepwidth (f0.rxBuf.getD 1 0) f0.stepgen }
        { f2 with stepgen := stepgen_reset f2.stepgen }
      else if w = TST then
        { f0 with txBuf := (List.range BUFSIZE).map (fun n => compl32 (f0.rxBuf.getD n 0)) }
      else f0
    { f1 with last_cmd := f1.rxBuf.getD 0 0 }
  else f

/-- Lines 268-277 of `main`: the integrity word on a half-full buffer and the data-ready
flag on a full buffer. -/
def dma_flags (i : Input) (f : State) : State :=
  let f1 := if i.CHDHIF then { f with txBuf := f.txBuf.set 0 (compl32 (f.rxBuf.getD 0 0)) } else f
  if i.CHBCIF then { f1 with spi_data_ready := true } else f1

/-- Lines 280-297 of `main`: the bus-silence timeout and its recovery block. Of the
recovery block the model keeps `reset_board` and counts the run in `recoveries`; the abort
of the DMA channels, `init_spi` and `init_dma` act on peripherals outside the state, and the
closing wait for the transmit buffer is taken to end. -/
def supervise (i : Input) (f : State) : State :=
  if i.SPIBUSY then
    { f with spi_timeout := SPI_TIMEOUT }
  else
    let f1 := if f.spi_timeout ≠ 0 then { f with spi_timeout := f.spi_timeout - 1 } else f
    if f1.spi_timeout = 1 then
      let f2 := reset_board f1
      { f2 with recoveries := f2.recoveries + 1 }
    else f1

/-- Lines 300-302 of `main`: the LED blinks, faster while the timeout is running. -/
def blink (f : State) : State :=
  let m := if f.spi_timeout ≠ 0 then 0x10000 else 0x40000
  let f1 := if f.counter % m = 0 then { f with LED := !f.LED } else f
  { f1 with counter := (f.counter + 1) % 2 ^ 32 }

/-- One iteration of the main loop of `main`. The receive buffer is taken to hold `i.rx`
throughout the iteration; the watchdog keep-alive is outside the state. -/
def main_loop (i : Input) (f : State) : State :=
  blink (supervise i (dma_flags i (dispatch i (count_cycles { f with rxBuf := i.rx }))))

/-- The state of `main` on entry to the main loop (lines 214-220). -/
def init (f : State) : State :=
  { reset_board f with
    spi_data_ready := false, spi_timeout := 0, last_cmd := 0, counter := 0, cycles := 0, j := 0,
    recoveries := 0 }

/-- The main loop run over a sequence of hardware inputs. -/
def run : List Input → State → State
  | [], f => f
  | i :: rest, f => run rest (main_loop i f)

end Fw

/-! ## Sample constants -/

/-- Modelled from the spec: sample values for what the missing header `picnc_grbl.h`
provides, used to evaluate the driver at concrete inputs. The position report of axis `i`
is payload word `1 + i` of the received frame read as a signed word, and the velocity
command of axis `i` is stored as a scaled integer in payload word `1 + i` of the frame to
transmit. -/
def sampleConsts : Consts where
  STEP_MASK := 2 ^ 22
  VELSCALE := 2 ^ 22 / 80000
  get_position := fun rx i => wrap32 (rx.getD (1 + i) 0)
  update_velocity := fun tx i v => tx.set (1 + i) (toWord (trunc v))

/-- An axis as `rtapi_app_main` leaves it: `scale` and `maxaccel` are `1.0`, every
other variable is zero, except `scale_inv` of axis 0, which is `1.0`. -/
def initAxis (scale_inv : ℚ) : Axis where
  position_cmd := 0
  position_fb := 0
  scale := 1
  maxaccel := 1
  scale_inv := scale_inv
  old_vel := 0
  old_pos := 0
  old_scale := 0
  old_count := 0
  accum := 0

/-- The driver state as `rtapi_app_main` leaves it, for a given list of axes and the
module parameters behind `max_vel` and `pwm_period`. -/
def initHost (axes : List Axis) (max_vel : ℚ) (pwm_period : Nat) : Host where
  axes := axes
  pwm_duty := 0
  pwm_scale := 1
  motor_enable := false
  spindle_enable := false
  coolant_enable := false
  lim_x := false
  lim_y := false
  lim_z := false
  abort := false
  hold := false
  resume := false
  ready := false
  spi_fault := false
  test := 0
  txBuf := [CFG, 1, pwm_period, 0, 0]
  rxBuf := [0, 0, 0, 0, 0]
  pwm_period := pwm_period
  dt := 0
  recip_dt := 0
  max_vel := max_vel
  old_dtns := 0
  startup := 0
  B := 0
  C := 0
  Z := 0

/-- A driver state in mid-motion: one axis, a period of one millisecond, `max_vel` of
20000 counts per second. -/
def planHost : Host :=
  { initHost [{ initAxis 1 with position_cmd := 5, old_pos := 3, old_vel := 100, accum := 7 }]
      20000 39999 with dt := 1 / 1000, recip_dt := 1000, old_dtns := 1000000 }

/-! ## The position feedback accumulator over a run of cycles -/

/-- The counter samples of axis `i` that the cycles of a run of `read_spi` read. -/
def samples (k : Consts) (i : Nat) (cs : List (List Nat × List Nat × Int)) : List Int :=
  cs.map (fun c => k.get_position c.2.1 i)

/-- The values that the temporary `accum_diff` takes for axis `i` in the successive
cycles of a run of `read_spi`. -/
def accum_diffs (k : Consts) (i : Nat) : List (List Nat × List Nat × Int) → Host → List Int
  | [], _ => []
  | c :: rest, s =>
    match s.axes[i]? with
    | some a =>
      count_diff (k.get_position c.2.1 i) a.old_count
        :: accum_diffs k i rest (read_spi k c.1 c.2.1 c.2.2 s)
    | none => []

/-- The relation between counter samples and true pulse changes: every sample is its
predecessor (`c0` for the first one) plus the pulse change at the same place, wrapped to 32
bits, and every pulse change lies in the signed 32-bit range. -/
def Unwraps : Int → List Int → List Int → Prop
  | _, [], [] => True
  | c0, c :: cs, d :: ds =>
    -2 ^ 31 ≤ d ∧ d ≤ 2 ^ 31 - 1 ∧ c = wrap32 (c0 + d) ∧ Unwraps c cs ds
  | _, _, _ => False

/-- The relation `Unwraps` is decidable. -/
def Unwraps.dec : (c0 : Int) → (cs ds : List Int) → Decidable (Unwraps c0 cs ds)
  | _, [], [] => isTrue trivial
  | _, [], _ :: _ => isFalse (fun h => h)
  | _, _ :: _, [] => isFalse (fun h => h)
  | c0, c :: cs, d :: ds =>
    have := Unwraps.dec c cs ds
    inferInstanceAs
      (Decidable (-2 ^ 31 ≤ d ∧ d ≤ 2 ^ 31 - 1 ∧ c = wrap32 (c0 + d) ∧ Unwraps c cs ds))

instance (c0 : Int) (cs ds : List Int) : Decidable (Unwraps c0 cs ds) := Unwraps.dec c0 cs ds

/-- An axis whose counter stands just below the signed 32-bit limit. -/
def wrapAxis : Axis := { initAxis 1 with old_count := 0x7FFFFFFE, accum := 0x7FFFFFFE }

/-- A driver state with the axis `wrapAxis`. -/
def wrapHost : Host := initHost [wrapAxis] 20000 39999

/-- One cycle whose reply reports the counter `0x80000005` for axis 0. -/
def wrapCycles : List (List Nat × List Nat × Int) :=
  [([0, 0, 0, 0, 0], [compl32 CM1, 0x80000005, 0, 0, 0], 1000000)]

/-! ## The link check over a run of cycles -/

/-- The number of cycles of a run whose reply fails the sanity check of `read_spi`. -/
def mismatches (cs : List (List Nat × List Nat × Int)) : Nat :=
  cs.countP (fun c => decide (c.2.1.getD 0 0 ≠ compl32 CM1))

/-- The driver state as `rtapi_app_main` leaves it, with one axis. -/
def startHost : Host := initHost [initAxis 1] 20000 39999

/-- A cycle whose reply carries the complement of the `>CM2` tag in word 0. -/
def cm2EchoCycle : List Nat × List Nat × Int :=
  ([0, 0, 0, 0, 0], [compl32 CM2, 0, 0, 0, 0], 1000000)

/-- A cycle whose reply passes the sanity check. -/
def goodCycle : List Nat × List Nat × Int :=
  ([0, 0, 0, 0, 0], [compl32 CM1, 0, 0, 0, 0], 1000000)

/-- A cycle whose reply fails the sanity check. -/
def badCycle : List Nat × List Nat × Int :=
  ([0, 0, 0, 0, 0], [0, 0, 0, 0, 0], 1000000)

/-! ## Sample states for the scale check and the dispatcher -/

/-- The surrounding framework writes the value `v` into the parameter `scale` of every
axis, between two cycles of the driver. -/
def set_scale (v : ℚ) (s : Host) : Host :=
  { s with axes := s.axes.map (fun a => { a with scale := v }) }

/-- A firmware state in which the last command was `>CM1`, thirty cycles have been counted
since, and a completed frame with the unknown tag `0x12345678` waits to be dispatched. -/
def Fw.armed : Fw.State where
  rxBuf := [0x12345678, 7, 7, 7, 7]
  txBuf := [compl32 CM1, 1, 2, 3, 4]
  spi_data_ready := true
  spi_timeout := 1000
  last_cmd := CM1
  counter := 5
  cycles := 30
  j := 12
  MOTOR_EN := true
  SPINDLE_EN := false
  COOLANT_EN := true
  OC3RS := 500
  PR2 := 39999
  LED := false
  stepgen := { velocity := [1, 2, 3, 4], position := [5, 6, 7, 8], stepwidth := 1 }
  recoveries := 0

/-- The hardware inputs of an idle iteration: no flag is set, the bus is silent, every
input line is low. -/
def Fw.idle (rx : List Nat) : Fw.Input where
  rx := rx
  CHDHIF := false
  CHBCIF := false
  SPIBUSY := false
  ABORT_IN := false
  HOLD_IN := false
  RESUME_IN := false
  LIM_X_IN := false
  LIM_Y_IN := false
  LIM_Z_IN := false

/-! ## Sample states for the acceleration parameter and the steady state -/

/-- An axis whose acceleration parameter is too high for the period: `maxaccel` of
`50000000` against a ceiling of `20000 / 0.001`, with a scale of `-2`. -/
def steepAxis : Axis := { initAxis 1 with maxaccel := 50000000, scale := -2, position_cmd := 1 }

/-- A driver state with the axis `steepAxis` and a period of one millisecond. -/
def steepHost : Host :=
  { initHost [steepAxis] 20000 39999 with
    dt := 1 / 1000, recip_dt := 1000, old_dtns := 1000000 }

/-- An axis at rest whose acceleration parameter is negative. -/
def freeAxis : Axis := { initAxis 1 with maxaccel := -3, position_cmd := 4 }

/-- A driver state with the axis `freeAxis` and a period of one millisecond. -/
def freeHost : Host :=
  { initHost [freeAxis] 20000 39999 with
    dt := 1 / 1000, recip_dt := 1000, old_dtns := 1000000 }

/-- A driver state with the motor and the coolant enabled and the spindle disabled. -/
def enableHost : Host := { startHost with motor_enable := true, coolant_enable := true }

/-- The hardware inputs of an iteration in which the bus is busy. -/
def Fw.busy (rx : List Nat) : Fw.Input := { Fw.idle rx with SPIBUSY := true }

/-- The hardware inputs of an iteration in which the receive buffer has just been filled:
the full flag of the DMA channel is set. -/
def Fw.full (rx : List Nat) : Fw.Input := { Fw.idle rx with CHBCIF := true, SPIBUSY := true }

/-- The firmware state on entry to the main loop. -/
def Fw.boot : Fw.State := Fw.init Fw.armed

/-- A `>CM1` frame as the firmware receives it. -/
def Fw.cm1Frame : List Nat := [CM1, 10, 20, 30, 40]

/-- A `>CM2` frame as the firmware receives it. -/
def Fw.cm2Frame : List Nat := [CM2, 5, 500, 0, 0]

/-- Nine iterations of the main loop: a `>CM1` frame completes in iteration 1 and is
dispatched in iteration 2, a `>CM2` frame completes in iteration 4 and is dispatched in
iteration 5, and a second `>CM1` frame completes in iteration 8 and is dispatched in
iteration 9. -/
def Fw.script : List Fw.Input :=
  [Fw.full Fw.cm1Frame, Fw.busy Fw.cm1Frame, Fw.idle Fw.cm1Frame, Fw.full Fw.cm2Frame,
    Fw.busy Fw.cm2Frame, Fw.idle Fw.cm2Frame, Fw.idle Fw.cm2Frame, Fw.full Fw.cm1Frame,
    Fw.busy Fw.cm1Frame]

/-- The firmware state left by the second iteration of `Fw.script`, which dispatches the
first `>CM1` frame. -/
def Fw.afterCm1 : Fw.State := Fw.run (Fw.script.take 2) Fw.boot

/-- A `>TST` frame as the firmware receives it. -/
def Fw.tstFrame : List Nat := [TST, 1, 2, 3, 4]

/-- The tag that the dispatcher sees in each iteration of a run of the main loop: word 0
of the receive buffer when the iteration begins with `spi_data_ready` set, so that lines
234-264 dispatch a frame, and nothing when they do not. -/
def Fw.dispatched : List Fw.Input → Fw.State → List (Option Nat)
  | [], _ => []
  | i :: rest, f =>
    (if f.spi_data_ready then some (i.rx.getD 0 0) else none)
      :: Fw.dispatched rest (Fw.main_loop i f)

/-- The number of iterations of a stretch of the main loop up to and including the first
one that dispatches a frame whose tag is not `>CM1`, and the number of all its iterations
when none does. The argument lists what each iteration dispatches. -/
def Fw.counted : List (Option Nat) → Nat
  | [] => 0
  | none :: rest => 1 + Fw.counted rest
  | some t :: rest => if t = CM1 then 1 + Fw.counted rest else 1

/-- The run with the frames `>CM1`, `>CM2`, `>TST`, `>CM1`: the iteration that completes
the first `>CM1` frame. -/
def Fw.fourPre : List Fw.Input := [Fw.full Fw.cm1Frame]

/-- The run with the frames `>CM1`, `>CM2`, `>TST`, `>CM1`: the five iterations between
the dispatch of the first `>CM1` frame and the dispatch of the second, in which the `>CM2`
frame and the `>TST` frame are dispatched. -/
def Fw.fourMid : List Fw.Input :=
  [Fw.full Fw.cm2Frame, Fw.busy Fw.cm2Frame, Fw.full Fw.tstFrame, Fw.busy Fw.tstFrame,
    Fw.full Fw.cm1Frame]

/-! ## The velocity planner: bounds on velocity and acceleration -/

theorem freq_limit_bounds (m v : ℚ) (hm : 0 ≤ m) :
    -m ≤ freq_limit m v ∧ freq_limit m v ≤ m := by
  unfold freq_limit
  split_ifs with h1 h2
  · constructor <;> linarith
  · constructor <;> linarith
  · constructor <;> linarith

theorem freq_limit_dist (m v o b : ℚ) (ho : |o| ≤ m) (hv : |v - o| ≤ b) :
    |freq_limit m v - o| ≤ b := by
  have ho2 := abs_le.mp ho
  have hv2 := abs_le.mp hv
  unfold freq_limit
  split_ifs with h1 h2
  · exact abs_le.mpr ⟨by linarith, by linarith⟩
  · exact abs_le.mpr ⟨by linarith, by linarith⟩
  · exact hv

theorem freq_limit_id (m v : ℚ) (h1 : -m ≤ v) (h2 : v ≤ m) : freq_limit m v = v := by
  unfold freq_limit
  rw [if_neg (not_lt.mpr h2), if_neg (not_lt.mpr h1)]

theorem accel_limit_pos (max_vel recip_dt maxaccel scale : ℚ) (hm : 0 < max_vel)
    (hr : 0 < recip_dt) (hs : scale ≠ 0) :
    0 < (accel_limit max_vel recip_dt maxaccel scale).1 := by
  have h0 : 0 < max_vel * recip_dt := mul_pos hm hr
  simp only [accel_limit]
  split_ifs with h1 h2
  · exact h0
  · exact h0
  · exact mul_pos (not_le.mp h1) (abs_pos.mpr hs)

theorem plan_vel_bounds (k : Consts) (max_vel dt recip_dt max_accl pos_cmd old_pos old_vel : ℚ)
    (accum : Int) (hm : 0 ≤ max_vel) :
    -max_vel ≤ plan_vel k max_vel dt recip_dt max_accl pos_cmd old_pos old_vel accum ∧
      plan_vel k max_vel dt recip_dt max_accl pos_cmd old_pos old_vel accum ≤ max_vel := by
  unfold plan_vel
  exact freq_limit_bounds _ _ hm

theorem plan_vel_accel (k : Consts) (max_vel dt recip_dt max_accl pos_cmd old_pos old_vel : ℚ)
    (accum : Int) (hdt : 0 < dt) (ha : 0 < max_accl) (ho : |old_vel| ≤ max_vel) :
    |plan_vel k max_vel dt recip_dt max_accl pos_cmd old_pos old_vel accum - old_vel|
      ≤ max_accl * dt := by
  have hb : 0 < max_accl * dt := mul_pos ha hdt
  unfold plan_vel
  apply freq_limit_dist _ _ _ _ ho
  simp only []
  split_ifs with hmt herr hup hdn hflip hgt hflip2 hgt2
  all_goals first
    | (rw [abs_le]; constructor <;> linarith)
    | skip
  · have h := (div_lt_iff₀ ha).mp herr
    rw [abs_le]; constructor <;> linarith
  · rw [div_neg, neg_lt, lt_div_iff₀ ha] at hflip2
    rw [abs_le]; constructor <;> linarith

theorem update_axes_get (k : Consts) (s : Host) (i : Nat) (a : Axis)
    (hi : s.axes[i]? = some a) :
    (update k s).axes[i]? = some (update_axis k s.max_vel s.dt s.recip_dt a) := by
  simp [update, List.getElem?_map, hi]

/-- C1. Velocity bound of the planner: whenever `max_vel ≥ 0`, the velocity that a call of
`update` stores in `old_vel` of any axis lies between `-max_vel` and `max_vel`, whatever
the command, the scale, the acceleration parameter, the accumulator and the planner
memory of that axis are. -/
theorem update_velocity_bound (k : Consts) (s : Host) (hm : 0 ≤ s.max_vel)
    (i : Nat) (a : Axis) (hi : s.axes[i]? = some a) :
    ∃ b, (update k s).axes[i]? = some b ∧ -s.max_vel ≤ b.old_vel ∧ b.old_vel ≤ s.max_vel :=
  ⟨_, update_axes_get k s i a hi, plan_vel_bounds k _ _ _ _ _ _ _ _ hm⟩

theorem update_velocity_bound_witness :
    0 ≤ planHost.max_vel ∧
      ∃ b, (update sampleConsts planHost).axes[0]? = some b ∧
        -planHost.max_vel ≤ b.old_vel ∧ b.old_vel ≤ planHost.max_vel :=
  ⟨by norm_num [planHost, initHost],
    update_velocity_bound sampleConsts planHost (by norm_num [planHost, initHost]) 0
      { initAxis 1 with position_cmd := 5, old_pos := 3, old_vel := 100, accum := 7 } rfl⟩

/-- C2. Acceleration bound of the planner: with `dt > 0`, `recip_dt = 1 / dt`,
`max_vel > 0`, and an axis with `scale ≠ 0` and `|old_vel| ≤ max_vel` on entry, the
velocity that a call of `update` stores differs from `old_vel` by at most `max_accl * dt`,
where `max_accl` is the acceleration limit computed at the top of the cycle. -/
theorem update_accel_bound (k : Consts) (s : Host) (hdt : 0 < s.dt)
    (hr : s.recip_dt = 1 / s.dt) (hm : 0 < s.max_vel)
    (i : Nat) (a : Axis) (hi : s.axes[i]? = some a) (hs : a.scale ≠ 0)
    (ho : |a.old_vel| ≤ s.max_vel) :
    ∃ b, (update k s).axes[i]? = some b ∧
      |b.old_vel - a.old_vel| ≤ (accel_limit s.max_vel s.recip_dt a.maxaccel a.scale).1 * s.dt := by
  refine ⟨_, update_axes_get k s i a hi, ?_⟩
  have hrp : 0 < s.recip_dt := by rw [hr]; exact one_div_pos.mpr hdt
  exact plan_vel_accel k _ _ _ _ _ _ _ _ hdt (accel_limit_pos _ _ _ _ hm hrp hs) ho

theorem update_accel_bound_witness :
    (0 < planHost.dt ∧ planHost.recip_dt = 1 / planHost.dt ∧ 0 < planHost.max_vel) ∧
      ∃ b, (update sampleConsts planHost).axes[0]? = some b ∧
        |b.old_vel - 100| ≤ (accel_limit planHost.max_vel planHost.recip_dt 1 1).1 * planHost.dt :=
  ⟨by norm_num [planHost, initHost],
    update_accel_bound sampleConsts planHost (by norm_num [planHost, initHost])
      (by norm_num [planHost, initHost]) (by norm_num [planHost, initHost]) 0
      { initAxis 1 with position_cmd := 5, old_pos := 3, old_vel := 100, accum := 7 } rfl
      (by norm_num [initAxis]) (by norm_num [planHost, initHost, initAxis])⟩

/-! ## The position feedback accumulator -/

theorem wrap32_diff (c0 d : Int) (h1 : -2 ^ 31 ≤ d) (h2 : d ≤ 2 ^ 31 - 1) :
    count_diff (wrap32 (c0 + d)) c0 = d := by
  simp only [count_diff, wrap32]
  omega

theorem wrap32_idem (x : Int) : wrap32 (wrap32 x) = wrap32 x := by
  simp only [wrap32]
  omega

theorem wrap64_add (x y : Int) : wrap64 (wrap64 x + y) = wrap64 (x + y) := by
  simp only [wrap64]
  omega

theorem wrap64_id (x : Int) (h1 : -2 ^ 63 ≤ x) (h2 : x < 2 ^ 63) : wrap64 x = x := by
  simp only [wrap64]
  omega

theorem accumulate_axes_get (k : Consts) (rx : List Nat) (l : List Axis) (n i : Nat) (a : Axis)
    (hi : l[i]? = some a) :
    (accumulate_axes k rx n l)[i]? = some (accumulate (k.get_position rx (n + i)) a) := by
  induction l generalizing n i with
  | nil => simp at hi
  | cons x rest ih =>
    cases i with
    | zero =>
      simp only [List.getElem?_cons_zero, Option.some.injEq] at hi
      simp [accumulate_axes, hi]
    | succ j =>
      simp only [List.getElem?_cons_succ] at hi
      simp only [accumulate_axes, List.getElem?_cons_succ]
      rw [ih (n + 1) j hi]
      congr 3
      omega

theorem update_inputs_axes (s : Host) : (update_inputs s).axes = s.axes := rfl

theorem update_outputs_axes (s : Host) : (update_outputs s).axes = s.axes := rfl

theorem period_check_axes (p : Int) (s : Host) : (period_check p s).axes = s.axes := by
  unfold period_check
  split_ifs <;> rfl

theorem sanity_check_axes (s : Host) : (sanity_check s).axes = s.axes := by
  unfold sanity_check
  split_ifs <;> rfl

theorem sanity_check_rxBuf (s : Host) : (sanity_check s).rxBuf = s.rxBuf := by
  unfold sanity_check
  split_ifs <;> rfl

theorem read_spi_axes (k : Consts) (rx1 rx2 : List Nat) (p : Int) (s : Host) :
    (read_spi k rx1 rx2 p s).axes = accumulate_axes k rx2 0 (s.axes.map (scale_check k)) := by
  simp only [read_spi, sanity_check_axes, sanity_check_rxBuf, period_check_axes,
    update_outputs_axes, update_inputs_axes]

theorem read_spi_axes_get (k : Consts) (rx1 rx2 : List Nat) (p : Int) (s : Host) (i : Nat)
    (a : Axis) (hi : s.axes[i]? = some a) :
    (read_spi k rx1 rx2 p s).axes[i]? =
      some (accumulate (k.get_position rx2 i) (scale_check k a)) := by
  rw [read_spi_axes]
  have h := accumulate_axes_get k rx2 (s.axes.map (scale_check k)) 0 i (scale_check k a)
    (by simp [List.getElem?_map, hi])
  simpa using h

theorem scale_check_old_count (k : Consts) (a : Axis) :
    (scale_check k a).old_count = a.old_count := by
  unfold scale_check
  split_ifs <;> rfl

theorem scale_check_accum (k : Consts) (a : Axis) : (scale_check k a).accum = a.accum := by
  unfold scale_check
  split_ifs <;> rfl

/-- C3. Exact unwrapping of the 32-bit counter: over any run of `read_spi` cycles whose
counter samples for an axis follow true pulse changes `ds` in the signed 32-bit range
(each sample is its predecessor plus the change, wrapped to 32 bits, the first
predecessor being `old_count` on entry), the signed difference computed in each cycle is
the pulse change of that cycle, the accumulator ends at its initial value plus the sum of
the changes (wrapped to 64 bits, hence exactly that sum when it fits 64 bits), and
`old_count` ends at the last sample. -/
theorem read_spi_unwrap (k : Consts) (i : Nat) (cs : List (List Nat × List Nat × Int))
    (ds : List Int) (s : Host) (a : Axis) (hi : s.axes[i]? = some a)
    (ha : -2 ^ 63 ≤ a.accum ∧ a.accum < 2 ^ 63)
    (hu : Unwraps a.old_count (samples k i cs) ds) :
    accum_diffs k i cs s = ds ∧
      ∃ b, (read_spi_run k cs s).axes[i]? = some b ∧
        b.accum = wrap64 (a.accum + ds.sum) ∧
        (-2 ^ 63 ≤ a.accum + ds.sum → a.accum + ds.sum < 2 ^ 63 → b.accum = a.accum + ds.sum) ∧
        b.old_count = (samples k i cs).getLastD a.old_count := by
  induction cs generalizing ds s a with
  | nil =>
    cases ds with
    | nil =>
      refine ⟨rfl, a, hi, ?_, ?_, rfl⟩
      · simp only [List.sum_nil, add_zero]
        exact (wrap64_id _ ha.1 ha.2).symm
      · intro _ _
        simp
    | cons d rest => simp [samples, Unwraps] at hu
  | cons c rest ih =>
    cases ds with
    | nil => simp [samples, Unwraps] at hu
    | cons d dt =>
      simp only [samples, List.map_cons, Unwraps] at hu
      obtain ⟨h1, h2, h3, h4⟩ := hu
      have hstep := read_spi_axes_get k c.1 c.2.1 c.2.2 s i a hi
      have hd : count_diff (k.get_position c.2.1 i) a.old_count = d := by
        rw [h3]; exact wrap32_diff _ _ h1 h2
      have hoc : (accumulate (k.get_position c.2.1 i) (scale_check k a)).old_count
          = k.get_position c.2.1 i := by
        simp only [accumulate]
        rw [h3]; exact wrap32_idem _
      have hac : (accumulate (k.get_position c.2.1 i) (scale_check k a)).accum
          = wrap64 (a.accum + d) := by
        simp only [accumulate, scale_check_old_count, scale_check_accum, hd]
      have hrange : -2 ^ 63 ≤ wrap64 (a.accum + d) ∧ wrap64 (a.accum + d) < 2 ^ 63 := by
        simp only [wrap64]
        omega
      obtain ⟨ih1, b, hb1, hb2, _, hb4⟩ := ih dt (read_spi k c.1 c.2.1 c.2.2 s) _ hstep
        (by rw [hac]; exact hrange) (by rw [hoc]; exact h4)
      have hsum : b.accum = wrap64 (a.accum + (d :: dt).sum) := by
        rw [hb2, hac, wrap64_add, List.sum_cons, add_assoc]
      refine ⟨?_, b, hb1, hsum, ?_, ?_⟩
      · simp only [accum_diffs, hi, hd, ih1]
      · intro h5 h6
        rw [hsum]; exact wrap64_id _ h5 h6
      · rw [hb4, hoc]
        simp [samples, List.getLastD]
        cases rest <;> simp

theorem read_spi_unwrap_witness :
    Unwraps wrapAxis.old_count (samples sampleConsts 0 wrapCycles) [7] ∧
      accum_diffs sampleConsts 0 wrapCycles wrapHost = [7] ∧
      ∃ b, (read_spi_run sampleConsts wrapCycles wrapHost).axes[0]? = some b ∧
        b.accum = wrap64 (wrapAxis.accum + [7].sum) ∧
        (-2 ^ 63 ≤ wrapAxis.accum + [7].sum → wrapAxis.accum + [7].sum < 2 ^ 63 →
          b.accum = wrapAxis.accum + [7].sum) ∧
        b.old_count = (samples sampleConsts 0 wrapCycles).getLastD wrapAxis.old_count :=
  ⟨by decide,
    read_spi_unwrap sampleConsts 0 wrapCycles [7] wrapHost wrapAxis rfl (by decide) (by decide)⟩

/-! ## The debounce filter -/

theorem debounce_settled (s g : Nat) : (s &&& (g ||| s ||| s)) ||| (g &&& s &&& s) = s := by
  apply Nat.eq_of_testBit_eq
  intro n
  simp only [Nat.testBit_or, Nat.testBit_and]
  cases s.testBit n <;> cases g.testBit n <;> rfl

theorem debounce_recover (s g : Nat) : (s &&& (s ||| g ||| s)) ||| (s &&& g &&& s) = s := by
  apply Nat.eq_of_testBit_eq
  intro n
  simp only [Nat.testBit_or, Nat.testBit_and]
  cases s.testBit n <;> cases g.testBit n <;> rfl

theorem debounce_recover2 (s g : Nat) : (s &&& (s ||| s ||| g)) ||| (s &&& s &&& g) = s := by
  apply Nat.eq_of_testBit_eq
  intro n
  simp only [Nat.testBit_or, Nat.testBit_and]
  cases s.testBit n <;> cases g.testBit n <;> rfl

theorem debounce_adopt (z s : Nat) : (z &&& (s ||| s ||| s)) ||| (s &&& s &&& s) = s := by
  apply Nat.eq_of_testBit_eq
  intro n
  simp only [Nat.testBit_or, Nat.testBit_and]
  cases s.testBit n <;> cases z.testBit n <;> rfl

/-- C4. The debounce filter rejects a single-cycle glitch: when the filter is settled on a
word `s` (the remembered samples `B`, `C` and the output `Z` all equal `s`), the three
successive calls `debounce(g)`, `debounce(s)`, `debounce(s)` each return `s`, for every
word `g`. -/
theorem debounce_glitch (s g : Nat) :
    (debounce (s, s, s) g).2 = s ∧
      (debounce (debounce (s, s, s) g).1 s).2 = s ∧
      (debounce (debounce (debounce (s, s, s) g).1 s).1 s).2 = s := by
  simp only [debounce]
  refine ⟨debounce_settled s g, ?_, ?_⟩
  · rw [debounce_settled]; exact debounce_recover s g
  · rw [debounce_settled, debounce_recover]; exact debounce_recover2 s g

/-- C5. The debounce filter adopts a stable input: from every filter state `(B, C, Z)`,
the third of three consecutive calls `debounce(s)` returns exactly `s`. -/
theorem debounce_stable (B C Z s : Nat) :
    (debounce (debounce (debounce (B, C, Z) s).1 s).1 s).2 = s := by
  simp only [debounce]
  exact debounce_adopt _ s

/-! ## The link check of `read_spi` -/

theorem read_spi_link (k : Consts) (rx1 rx2 : List Nat) (p : Int) (s : Host) :
    (read_spi k rx1 rx2 p s).ready = decide (rx2.getD 0 0 = compl32 CM1) ∧
      (read_spi k rx1 rx2 p s).startup =
        (if rx2.getD 0 0 = compl32 CM1 then s.startup else if s.startup = 0 then 1
          else s.startup) ∧
      (read_spi k rx1 rx2 p s).spi_fault =
        (if rx2.getD 0 0 = compl32 CM1 then s.spi_fault else if s.startup = 0 then s.spi_fault
          else true) := by
  simp only [read_spi, sanity_check, period_check, update_outputs, update_inputs]
  split_ifs <;> simp_all

/-- C6, as the code has it. Healthy-link check on the host: in a `read_spi` cycle, which
tags the frame it transmits `>CM2`, if word 0 of the reply is the bitwise complement of the
`>CM1` tag `0x314D433E`, then `ready` is set to true, and `spi_fault` and the startup grace
are left as they were before the cycle. -/
theorem read_spi_healthy (k : Consts) (rx1 rx2 : List Nat) (p : Int) (s : Host)
    (h : rx2.getD 0 0 = compl32 CM1) :
    (read_spi k rx1 rx2 p s).ready = true ∧
      (read_spi k rx1 rx2 p s).spi_fault = s.spi_fault ∧
      (read_spi k rx1 rx2 p s).startup = s.startup ∧
      (0 < s.txBuf.length → (read_spi k rx1 rx2 p s).txBuf[0]? = some CM2) := by
  obtain ⟨h1, h2, h3⟩ := read_spi_link k rx1 rx2 p s
  refine ⟨by rw [h1, decide_eq_true h], by rw [h3, if_pos h], by rw [h2, if_pos h], ?_⟩
  intro hl
  have ht : (read_spi k rx1 rx2 p s).txBuf = (update_outputs
      { update_inputs { s with rxBuf := rx1 } with
        test := (update_inputs { s with rxBuf := rx1 }).rxBuf.getD 2 0,
        txBuf := (update_inputs { s with rxBuf := rx1 }).txBuf.set 0 CM2 }).txBuf := by
    simp only [read_spi, sanity_check, period_check]
    split_ifs <;> rfl
  rw [ht]
  simp [update_outputs, update_inputs, List.getElem?_set, hl]

theorem read_spi_healthy_witness :
    goodCycle.2.1.getD 0 0 = compl32 CM1 ∧
      (read_spi sampleConsts goodCycle.1 goodCycle.2.1 goodCycle.2.2 startHost).ready = true ∧
      (read_spi sampleConsts goodCycle.1 goodCycle.2.1 goodCycle.2.2 startHost).spi_fault
        = startHost.spi_fault ∧
      (read_spi sampleConsts goodCycle.1 goodCycle.2.1 goodCycle.2.2 startHost).startup
        = startHost.startup ∧
      (0 < startHost.txBuf.length →
        (read_spi sampleConsts goodCycle.1 goodCycle.2.1 goodCycle.2.2 startHost).txBuf[0]?
          = some CM2) :=
  ⟨by decide,
    read_spi_healthy sampleConsts goodCycle.1 goodCycle.2.1 goodCycle.2.2 startHost (by decide)⟩

/-- C6 as stated fails. From the initial driver state, a reply whose word 0 is the bitwise
complement of the `>CM2` tag is a mismatch: the cycle ends with `ready` false, and a second
such cycle turns `spi_fault` from false to true. -/
theorem read_spi_cm2_echo_rejected :
    cm2EchoCycle.2.1.getD 0 0 = compl32 CM2 ∧
      startHost.spi_fault = false ∧
      (read_spi_run sampleConsts [cm2EchoCycle] startHost).ready = false ∧
      (read_spi_run sampleConsts [cm2EchoCycle] startHost).spi_fault = false ∧
      (read_spi_run sampleConsts [cm2EchoCycle, cm2EchoCycle] startHost).ready = false ∧
      (read_spi_run sampleConsts [cm2EchoCycle, cm2EchoCycle] startHost).spi_fault = true := by
  decide

theorem read_spi_run_append (k : Consts) (cs ds : List (List Nat × List Nat × Int)) (s : Host) :
    read_spi_run k (cs ++ ds) s = read_spi_run k ds (read_spi_run k cs s) := by
  induction cs generalizing s with
  | nil => rfl
  | cons c rest ih => exact ih (read_spi k c.1 c.2.1 c.2.2 s)

theorem read_spi_startup_kept (k : Consts) (rx1 rx2 : List Nat) (p : Int) (s : Host)
    (h : s.startup = 1) : (read_spi k rx1 rx2 p s).startup = 1 := by
  rw [(read_spi_link k rx1 rx2 p s).2.1]
  split_ifs <;> simp_all

theorem read_spi_fault_kept (k : Consts) (rx1 rx2 : List Nat) (p : Int) (s : Host)
    (h : s.spi_fault = true) : (read_spi k rx1 rx2 p s).spi_fault = true := by
  rw [(read_spi_link k rx1 rx2 p s).2.2]
  split_ifs <;> simp_all

theorem read_spi_run_startup_kept (k : Consts) (cs : List (List Nat × List Nat × Int))
    (s : Host) (h : s.startup = 1) : (read_spi_run k cs s).startup = 1 := by
  induction cs generalizing s with
  | nil => exact h
  | cons c rest ih => exact ih _ (read_spi_startup_kept k _ _ _ s h)

theorem read_spi_run_fault_kept (k : Consts) (cs : List (List Nat × List Nat × Int))
    (s : Host) (h : s.spi_fault = true) : (read_spi_run k cs s).spi_fault = true := by
  induction cs generalizing s with
  | nil => exact h
  | cons c rest ih => exact ih _ (read_spi_fault_kept k _ _ _ s h)

/-- C7. Sticky link fault: once the startup grace is consumed (`startup = 1`), after any
further cycles `cs`, a cycle `c` whose reply fails the sanity check ends with `ready` false,
`spi_fault` true and the grace still consumed; after any later cycles, matching or not,
`spi_fault` is still true and the grace still consumed; and no `read_spi` cycle, from any
state, turns a true `spi_fault` to false. -/
theorem read_spi_sticky_fault (k : Consts) (s : Host) (hs : s.startup = 1)
    (cs later : List (List Nat × List Nat × Int)) (c : List Nat × List Nat × Int)
    (hc : c.2.1.getD 0 0 ≠ compl32 CM1) :
    (read_spi_run k (cs ++ [c]) s).ready = false ∧
      (read_spi_run k (cs ++ [c]) s).spi_fault = true ∧
      (read_spi_run k (cs ++ [c]) s).startup = 1 ∧
      (read_spi_run k (cs ++ [c] ++ later) s).spi_fault = true ∧
      (read_spi_run k (cs ++ [c] ++ later) s).startup = 1 ∧
      (∀ (t : Host) (rx1 rx2 : List Nat) (p : Int),
        t.spi_fault = true → (read_spi k rx1 rx2 p t).spi_fault = true) := by
  have h0 := read_spi_run_startup_kept k cs s hs
  obtain ⟨h1, h2, h3⟩ := read_spi_link k c.1 c.2.1 c.2.2 (read_spi_run k cs s)
  have e : read_spi_run k (cs ++ [c]) s = read_spi k c.1 c.2.1 c.2.2 (read_spi_run k cs s) := by
    rw [read_spi_run_append]; rfl
  have hr : (read_spi_run k (cs ++ [c]) s).ready = false := by
    rw [e, h1]; exact decide_eq_false hc
  have hf : (read_spi_run k (cs ++ [c]) s).spi_fault = true := by
    rw [e, h3, if_neg hc, if_neg (by rw [h0]; decide)]
  have hst : (read_spi_run k (cs ++ [c]) s).startup = 1 := by
    rw [e]; exact read_spi_startup_kept k _ _ _ _ h0
  refine ⟨hr, hf, hst, ?_, ?_, fun t rx1 rx2 p ht => read_spi_fault_kept k rx1 rx2 p t ht⟩
  · rw [read_spi_run_append]; exact read_spi_run_fault_kept k later _ hf
  · rw [read_spi_run_append]; exact read_spi_run_startup_kept k later _ hst

theorem read_spi_sticky_fault_witness :
    ({ startHost with startup := 1 } : Host).startup = 1 ∧
      badCycle.2.1.getD 0 0 ≠ compl32 CM1 ∧
      (read_spi_run sampleConsts ([goodCycle] ++ [badCycle]) { startHost with startup := 1 }).ready
        = false ∧
      (read_spi_run sampleConsts ([goodCycle] ++ [badCycle])
        { startHost with startup := 1 }).spi_fault = true ∧
      (read_spi_run sampleConsts ([goodCycle] ++ [badCycle])
        { startHost with startup := 1 }).startup = 1 ∧
      (read_spi_run sampleConsts ([goodCycle] ++ [badCycle] ++ [goodCycle, badCycle])
        { startHost with startup := 1 }).spi_fault = true ∧
      (read_spi_run sampleConsts ([goodCycle] ++ [badCycle] ++ [goodCycle, badCycle])
        { startHost with startup := 1 }).startup = 1 ∧
      (∀ (t : Host) (rx1 rx2 : List Nat) (p : Int),
        t.spi_fault = true → (read_spi sampleConsts rx1 rx2 p t).spi_fault = true) :=
  ⟨rfl, by decide,
    read_spi_sticky_fault sampleConsts { startHost with startup := 1 } rfl [goodCycle]
      [goodCycle, badCycle] badCycle (by decide)⟩

theorem mismatches_cons_good (c : List Nat × List Nat × Int)
    (rest : List (List Nat × List Nat × Int)) (h : c.2.1.getD 0 0 = compl32 CM1) :
    mismatches (c :: rest) = mismatches rest := by
  unfold mismatches
  rw [List.countP_cons_of_neg]
  simpa using h

theorem mismatches_cons_bad (c : List Nat × List Nat × Int)
    (rest : List (List Nat × List Nat × Int)) (h : c.2.1.getD 0 0 ≠ compl32 CM1) :
    mismatches (c :: rest) = mismatches rest + 1 := by
  unfold mismatches
  rw [List.countP_cons_of_pos]
  simpa using h

theorem link_run (k : Consts) (cs : List (List Nat × List Nat × Int)) (s : Host) :
    (read_spi_run k cs s).spi_fault =
        (s.spi_fault || decide ((if s.startup = 0 then 2 else 1) ≤ mismatches cs)) ∧
      (read_spi_run k cs s).startup =
        (if s.startup = 0 then (if mismatches cs = 0 then 0 else 1) else s.startup) := by
  induction cs generalizing s with
  | nil =>
    have hz : mismatches [] = 0 := rfl
    simp only [read_spi_run, hz]
    split_ifs <;> simp_all
  | cons c rest ih =>
    obtain ⟨_, h2, h3⟩ := read_spi_link k c.1 c.2.1 c.2.2 s
    obtain ⟨i1, i2⟩ := ih (read_spi k c.1 c.2.1 c.2.2 s)
    show (read_spi_run k rest (read_spi k c.1 c.2.1 c.2.2 s)).spi_fault = _ ∧
      (read_spi_run k rest (read_spi k c.1 c.2.1 c.2.2 s)).startup = _
    rw [i1, i2, h2, h3]
    by_cases hm : c.2.1.getD 0 0 = compl32 CM1
    · rw [mismatches_cons_good c rest hm, if_pos hm, if_pos hm]
      exact ⟨rfl, rfl⟩
    · rw [mismatches_cons_bad c rest hm, if_neg hm, if_neg hm]
      by_cases h0 : s.startup = 0
      · rw [if_pos h0, if_pos h0, if_pos h0, if_pos h0]
        refine ⟨?_, ?_⟩
        · congr 1
          simp
        · simp
      · rw [if_neg h0, if_neg h0, if_neg h0, if_neg h0, if_neg h0]
        refine ⟨?_, rfl⟩
        simp

theorem mismatches_snoc_bad (cs : List (List Nat × List Nat × Int))
    (c : List Nat × List Nat × Int) (h : c.2.1.getD 0 0 ≠ compl32 CM1) :
    mismatches (cs ++ [c]) = mismatches cs + 1 := by
  have h1 : mismatches [c] = 1 := by rw [mismatches_cons_bad c [] h]; rfl
  unfold mismatches at h1 ⊢
  rw [List.countP_append, h1]

/-- C8 as stated fails. From the initial driver state, a matching first cycle followed by a
mismatching second cycle ends with `spi_fault` still false: the mismatch on a cycle after
the first one was covered by the grace. -/
theorem read_spi_grace_after_first_cycle :
    startHost.startup = 0 ∧ startHost.spi_fault = false ∧
      goodCycle.2.1.getD 0 0 = compl32 CM1 ∧
      badCycle.2.1.getD 0 0 ≠ compl32 CM1 ∧
      (read_spi_run sampleConsts [goodCycle, badCycle] startHost).spi_fault = false ∧
      (read_spi_run sampleConsts [goodCycle, badCycle] startHost).startup = 1 := by
  decide

/-- C8, as the code has it. The startup grace covers the first mismatch: over every run of
`read_spi` cycles from a state with `startup = 0` and `spi_fault` false, `spi_fault` is true
after the run exactly when at least two replies of the run failed the sanity check, and the
grace is consumed exactly when at least one did. So a mismatch on the very first cycle
leaves `spi_fault` false, the first mismatch of a run leaves it false on whichever cycle it
comes, and every mismatch after the first one sets it to true. -/
theorem read_spi_startup_grace (k : Consts) (cs : List (List Nat × List Nat × Int)) (s : Host)
    (h0 : s.startup = 0) (hf : s.spi_fault = false) :
    ((read_spi_run k cs s).spi_fault = true ↔ 2 ≤ mismatches cs) ∧
      ((read_spi_run k cs s).startup = 1 ↔ 1 ≤ mismatches cs) ∧
      (∀ c : List Nat × List Nat × Int, c.2.1.getD 0 0 ≠ compl32 CM1 →
        (read_spi_run k [c] s).spi_fault = false) ∧
      (∀ c : List Nat × List Nat × Int, c.2.1.getD 0 0 ≠ compl32 CM1 → mismatches cs = 0 →
        (read_spi_run k (cs ++ [c]) s).spi_fault = false) ∧
      (∀ c : List Nat × List Nat × Int, c.2.1.getD 0 0 ≠ compl32 CM1 → 1 ≤ mismatches cs →
        (read_spi_run k (cs ++ [c]) s).spi_fault = true) := by
  have key : ∀ ds : List (List Nat × List Nat × Int),
      (read_spi_run k ds s).spi_fault = decide (2 ≤ mismatches ds) := by
    intro ds
    rw [(link_run k ds s).1, hf, if_pos h0, Bool.false_or]
  refine ⟨?_, ?_, ?_, ?_, ?_⟩
  · rw [key cs]; exact decide_eq_true_iff
  · rw [(link_run k cs s).2, if_pos h0]
    split_ifs with hz
    · rw [hz]; decide
    · exact ⟨fun _ => by omega, fun _ => rfl⟩
  · intro c hc
    rw [key [c], mismatches_cons_bad c [] hc]
    rfl
  · intro c hc hz
    rw [key, mismatches_snoc_bad cs c hc, hz]
    rfl
  · intro c hc h1
    rw [key, mismatches_snoc_bad cs c hc]
    exact decide_eq_true (by omega)

theorem read_spi_startup_grace_witness :
    (startHost.startup = 0 ∧ startHost.spi_fault = false) ∧
      ((read_spi_run sampleConsts [goodCycle, badCycle] startHost).spi_fault = true ↔
        2 ≤ mismatches [goodCycle, badCycle]) ∧
      ((read_spi_run sampleConsts [goodCycle, badCycle] startHost).startup = 1 ↔
        1 ≤ mismatches [goodCycle, badCycle]) ∧
      (∀ c : List Nat × List Nat × Int, c.2.1.getD 0 0 ≠ compl32 CM1 →
        (read_spi_run sampleConsts [c] startHost).spi_fault = false) ∧
      (∀ c : List Nat × List Nat × Int, c.2.1.getD 0 0 ≠ compl32 CM1 →
        mismatches [goodCycle, badCycle] = 0 →
        (read_spi_run sampleConsts ([goodCycle, badCycle] ++ [c]) startHost).spi_fault = false) ∧
      (∀ c : List Nat × List Nat × Int, c.2.1.getD 0 0 ≠ compl32 CM1 →
        1 ≤ mismatches [goodCycle, badCycle] →
        (read_spi_run sampleConsts ([goodCycle, badCycle] ++ [c]) startHost).spi_fault = true) :=
  ⟨⟨rfl, rfl⟩, read_spi_startup_grace sampleConsts [goodCycle, badCycle] startHost rfl rfl⟩

/-! ## The firmware dispatcher -/

/-- C9 as stated fails. A completed frame with the unknown tag `0x12345678`, dispatched
while the remembered last command is `>CM1`, changes the remembered last command to
`0x12345678`; in the next iteration the elapsed cycles are no longer counted, whereas they
would have been without that frame. -/
theorem dispatch_unknown_changes_last_cmd :
    Fw.armed.spi_data_ready = true ∧
      Fw.armed.rxBuf.getD 0 0 = 0x12345678 ∧
      Fw.armed.last_cmd = CM1 ∧
      (Fw.dispatch (Fw.idle Fw.armed.rxBuf) Fw.armed).last_cmd = 0x12345678 ∧
      (Fw.count_cycles Fw.armed).cycles = 31 ∧
      (Fw.count_cycles (Fw.dispatch (Fw.idle Fw.armed.rxBuf) Fw.armed)).cycles = 30 := by
  decide

/-- C9, as the code has it. When the main loop dispatches a completed frame whose word 0
is none of the five tags `>RST`, `>CM1`, `>CM2`, `>CFG`, `>TST`, the state after the
dispatch is the state before it with the data-ready flag consumed and the remembered last
command set to that word 0: the reply buffer, the enable outputs, the PWM duty and period,
the velocity commands, the elapsed-cycle counter and the captured value `j` are the same. -/
theorem dispatch_unrecognized (i : Fw.Input) (f : Fw.State) (hr : f.spi_data_ready = true)
    (h1 : f.rxBuf.getD 0 0 ≠ RST) (h2 : f.rxBuf.getD 0 0 ≠ CM1) (h3 : f.rxBuf.getD 0 0 ≠ CM2)
    (h4 : f.rxBuf.getD 0 0 ≠ CFG) (h5 : f.rxBuf.getD 0 0 ≠ TST) :
    Fw.dispatch i f = { f with spi_data_ready := false, last_cmd := f.rxBuf.getD 0 0 } := by
  unfold Fw.dispatch
  rw [if_pos hr]
  simp only [if_neg h1, if_neg h2, if_neg h3, if_neg h4, if_neg h5]

theorem dispatch_unrecognized_witness :
    (Fw.armed.spi_data_ready = true ∧ Fw.armed.rxBuf.getD 0 0 ≠ RST ∧
        Fw.armed.rxBuf.getD 0 0 ≠ CM1 ∧ Fw.armed.rxBuf.getD 0 0 ≠ CM2 ∧
        Fw.armed.rxBuf.getD 0 0 ≠ CFG ∧ Fw.armed.rxBuf.getD 0 0 ≠ TST) ∧
      Fw.dispatch (Fw.idle Fw.armed.rxBuf) Fw.armed =
        { Fw.armed with spi_data_ready := false, last_cmd := Fw.armed.rxBuf.getD 0 0 } :=
  ⟨by decide,
    dispatch_unrecognized (Fw.idle Fw.armed.rxBuf) Fw.armed rfl (by decide) (by decide)
      (by decide) (by decide) (by decide)⟩

/-! ## The scale check of `read_spi` -/

/-- C10 fails on the code. First input: the framework writes `scale = 0` before the first
cycle; the change test compares with `old_scale = 0`, sees no change, and the cycle ends
with `scale = 0` and `scale_inv` at its initial value. Second input: the framework writes
`scale = 1e-30`, a cycle replaces it by `1.0` and remembers `1e-30` in `old_scale`; the
framework writes `1e-30` again, the change test sees no change, and that cycle ends with
`scale = 1e-30` while `scale_inv` is still the one computed for `1.0`. -/
theorem read_spi_scale_left_near_zero :
    (read_spi sampleConsts goodCycle.1 goodCycle.2.1 goodCycle.2.2
        (set_scale 0 startHost)).axes.map (fun a => (a.scale, a.scale_inv, a.old_scale))
      = [(0, 1, 0)] ∧
    (read_spi sampleConsts goodCycle.1 goodCycle.2.1 goodCycle.2.2
        (set_scale (1 / 10 ^ 30) startHost)).axes.map
          (fun a => (a.scale, a.scale_inv, a.old_scale))
      = [(1, 1 / 2 ^ 22, 1 / 10 ^ 30)] ∧
    (read_spi sampleConsts goodCycle.1 goodCycle.2.1 goodCycle.2.2
        (set_scale (1 / 10 ^ 30)
          (read_spi sampleConsts goodCycle.1 goodCycle.2.1 goodCycle.2.2
            (set_scale (1 / 10 ^ 30) startHost)))).axes.map
          (fun a => (a.scale, a.scale_inv, a.old_scale))
      = [(1 / 10 ^ 30, 1 / 2 ^ 22, 1 / 10 ^ 30)] := by
  refine ⟨?_, ?_, ?_⟩ <;>
    norm_num [read_spi_axes, set_scale, startHost, initHost, initAxis, scale_check,
      accumulate_axes, accumulate, sampleConsts, goodCycle]

/-! ## The timing variables and the tag constant of the sanity check -/

theorem period_check_recip (p : Int) (s : Host) (h : s.recip_dt = 1 / s.dt) :
    (period_check p s).recip_dt = 1 / (period_check p s).dt := by
  unfold period_check
  split_ifs
  · rfl
  · exact h

theorem read_spi_recip (k : Consts) (rx1 rx2 : List Nat) (p : Int) (s : Host)
    (h : s.recip_dt = 1 / s.dt) :
    (read_spi k rx1 rx2 p s).recip_dt = 1 / (read_spi k rx1 rx2 p s).dt := by
  have h1 : (read_spi k rx1 rx2 p s).recip_dt = (period_check p s).recip_dt := by
    simp only [read_spi, sanity_check, period_check, update_outputs, update_inputs]
    split_ifs <;> rfl
  have h2 : (read_spi k rx1 rx2 p s).dt = (period_check p s).dt := by
    simp only [read_spi, sanity_check, period_check, update_outputs, update_inputs]
    split_ifs <;> rfl
  rw [h1, h2]
  exact period_check_recip p s h

theorem update_timing (k : Consts) (s : Host) :
    (update k s).dt = s.dt ∧ (update k s).recip_dt = s.recip_dt ∧
      (update k s).max_vel = s.max_vel :=
  ⟨rfl, rfl, rfl⟩

theorem compl32_CM1_signed : toWord (-(0x314D433E) - 1) = compl32 CM1 := by decide

/-! ## The acceleration parameter -/

theorem accel_limit_idem (max_vel recip_dt maxaccel scale : ℚ) (hM : 0 < max_vel * recip_dt)
    (hs : scale ≠ 0) :
    (accel_limit max_vel recip_dt (accel_limit max_vel recip_dt maxaccel scale).2 scale).2
      = (accel_limit max_vel recip_dt maxaccel scale).2 := by
  have hsc : 0 < |scale| := abs_pos.mpr hs
  by_cases h1 : maxaccel ≤ 0
  · simp [accel_limit, h1]
  · by_cases h2 : maxaccel * |scale| > max_vel * recip_dt
    · have hq : ¬ (max_vel * recip_dt / |scale| ≤ 0) := not_le.mpr (div_pos hM hsc)
      have he : max_vel * recip_dt / |scale| * |scale| = max_vel * recip_dt :=
        div_mul_cancel₀ _ (ne_of_gt hsc)
      simp [accel_limit, h1, h2, hq, he]
    · simp [accel_limit, h1, h2]

/-- C11. In-place normalization of the acceleration parameter: after one pass of `update`
with `dt > 0`, `recip_dt = 1 / dt`, `max_vel > 0` and an axis with `scale ≠ 0`, the stored
`maxaccel` is `0` if it was `≤ 0` on entry, is `(max_vel / dt) / |scale|` if
`maxaccel * |scale|` exceeded `max_vel / dt` on entry, and is unchanged otherwise; so
afterwards `maxaccel ≥ 0` and `maxaccel * |scale| ≤ max_vel / dt`, and a second pass of
`update` leaves `maxaccel` as the first pass stored it. -/
theorem update_maxaccel_normalized (k : Consts) (s : Host) (hdt : 0 < s.dt)
    (hr : s.recip_dt = 1 / s.dt) (hm : 0 < s.max_vel)
    (i : Nat) (a : Axis) (hi : s.axes[i]? = some a) (hs : a.scale ≠ 0) :
    ∃ b, (update k s).axes[i]? = some b ∧ b.scale = a.scale ∧
      (a.maxaccel ≤ 0 → b.maxaccel = 0) ∧
      (a.maxaccel * |a.scale| > s.max_vel / s.dt →
        b.maxaccel = (s.max_vel / s.dt) / |a.scale|) ∧
      (0 < a.maxaccel → a.maxaccel * |a.scale| ≤ s.max_vel / s.dt →
        b.maxaccel = a.maxaccel) ∧
      0 ≤ b.maxaccel ∧ b.maxaccel * |a.scale| ≤ s.max_vel / s.dt ∧
      ∃ c, (update k (update k s)).axes[i]? = some c ∧ c.maxaccel = b.maxaccel := by
  have hsc : 0 < |a.scale| := abs_pos.mpr hs
  have hM : s.max_vel * s.recip_dt = s.max_vel / s.dt := by rw [hr, mul_one_div]
  have hMp : 0 < s.max_vel / s.dt := div_pos hm hdt
  have hb : (update_axis k s.max_vel s.dt s.recip_dt a).maxaccel
      = (accel_limit s.max_vel s.recip_dt a.maxaccel a.scale).2 := rfl
  refine ⟨_, update_axes_get k s i a hi, rfl, ?_, ?_, ?_, ?_, ?_, ?_⟩
  · intro h1
    rw [hb]; simp [accel_limit, h1]
  · intro h2
    have h1 : ¬ a.maxaccel ≤ 0 := by
      intro h0
      have : a.maxaccel * |a.scale| ≤ 0 := mul_nonpos_of_nonpos_of_nonneg h0 (le_of_lt hsc)
      linarith
    rw [hb]; simp [accel_limit, h1, hM, h2]
  · intro h1 h2
    rw [hb]; simp [accel_limit, not_le.mpr h1, hM, not_lt.mpr h2]
  · rw [hb]
    simp only [accel_limit, hM]
    split_ifs with h1 h2
    · exact le_refl _
    · exact le_of_lt (div_pos hMp hsc)
    · exact le_of_lt (not_le.mp h1)
  · rw [hb]
    simp only [accel_limit, hM]
    split_ifs with h1 h2
    · rw [zero_mul]; exact le_of_lt hMp
    · rw [div_mul_cancel₀ _ (ne_of_gt hsc)]
    · exact not_lt.mp h2
  · refine ⟨_, update_axes_get k (update k s) i _ (update_axes_get k s i a hi), ?_⟩
    exact accel_limit_idem s.max_vel s.recip_dt a.maxaccel a.scale (by rw [hM]; exact hMp) hs

theorem update_maxaccel_normalized_witness :
    (0 < steepHost.dt ∧ steepHost.recip_dt = 1 / steepHost.dt ∧ 0 < steepHost.max_vel ∧
        steepAxis.scale ≠ 0) ∧
      ∃ b, (update sampleConsts steepHost).axes[0]? = some b ∧ b.scale = steepAxis.scale ∧
        (steepAxis.maxaccel ≤ 0 → b.maxaccel = 0) ∧
        (steepAxis.maxaccel * |steepAxis.scale| > steepHost.max_vel / steepHost.dt →
          b.maxaccel = (steepHost.max_vel / steepHost.dt) / |steepAxis.scale|) ∧
        (0 < steepAxis.maxaccel →
          steepAxis.maxaccel * |steepAxis.scale| ≤ steepHost.max_vel / steepHost.dt →
          b.maxaccel = steepAxis.maxaccel) ∧
        0 ≤ b.maxaccel ∧ b.maxaccel * |steepAxis.scale| ≤ steepHost.max_vel / steepHost.dt ∧
        ∃ c, (update sampleConsts (update sampleConsts steepHost)).axes[0]? = some c ∧
          c.maxaccel = b.maxaccel :=
  ⟨by norm_num [steepHost, steepAxis, initHost, initAxis],
    update_maxaccel_normalized sampleConsts steepHost
      (by norm_num [steepHost, initHost]) (by norm_num [steepHost, initHost])
      (by norm_num [steepHost, initHost]) 0 steepAxis rfl
      (by norm_num [steepAxis, initAxis])⟩

theorem plan_vel_reach (k : Consts) (max_vel dt v P : ℚ) (accum : Int) (hdt : 0 < dt)
    (hm : 0 < max_vel) (hv : |v| ≤ max_vel)
    (hP : P = (accum : ℚ) * (1 / k.STEP_MASK) + (v + 0) * (1 / 2) * (|v| / (max_vel / dt))
      - v * (|v| / (max_vel / dt) - 3 / 2 * dt)) :
    plan_vel k max_vel dt (1 / dt) (max_vel / dt) P (P - v * dt) 0 accum = v := by
  have hma : 0 < max_vel / dt := div_pos hm hdt
  have hmd : max_vel / dt * dt = max_vel := div_mul_cancel₀ _ (ne_of_gt hdt)
  have hv2 := abs_le.mp hv
  have hvc : freq_limit max_vel ((P - (P - v * dt)) * (1 / dt)) = v := by
    have h : (P - (P - v * dt)) * (1 / dt) = v := by field_simp
    rw [h]; exact freq_limit_id _ _ hv2.1 hv2.2
  have hmt : (v - 0) / (if v > 0 then max_vel / dt else -(max_vel / dt))
      = |v| / (max_vel / dt) := by
    split_ifs with hpos
    · rw [sub_zero, abs_of_pos hpos]
    · rw [sub_zero, abs_of_nonpos (not_lt.mp hpos), div_neg, neg_div]
  unfold plan_vel
  simp only [hvc, hmt]
  have herr : (accum : ℚ) * (1 / k.STEP_MASK) + (v + 0) * (1 / 2) * (|v| / (max_vel / dt))
      - (P + v * (|v| / (max_vel / dt) - 3 / 2 * dt)) = 0 := by
    rw [hP]; ring
  simp only [herr]
  have hnf : ¬ (|0 + (-2 * if v > 0 then max_vel / dt else -(max_vel / dt)) * dt
      * (|v| / (max_vel / dt)) * 2| < |(0 : ℚ)|) := by
    rw [abs_zero]; exact not_lt.mpr (abs_nonneg _)
  rw [if_neg hnf]
  by_cases hlt : |v| / (max_vel / dt) < dt
  · rw [if_pos hlt, if_pos (by rw [abs_zero]; norm_num)]
    exact freq_limit_id _ _ hv2.1 hv2.2
  · rw [if_neg hlt]
    have hge : max_vel ≤ |v| := by
      have h := (le_div_iff₀ hma).mp (not_lt.mp hlt)
      rw [mul_comm, hmd] at h
      exact h
    have habs : |v| = max_vel := le_antisymm hv hge
    by_cases hpos : v > 0
    · rw [if_pos hpos, zero_add, hmd]
      rw [abs_of_pos hpos] at habs
      rw [← habs]
      exact freq_limit_id _ _ (by linarith) (le_refl _)
    · rw [if_neg hpos, zero_add, neg_mul, hmd]
      rw [abs_of_nonpos (not_lt.mp hpos)] at habs
      have hv3 : v = -max_vel := by linarith
      rw [← hv3]
      exact freq_limit_id _ _ hv2.1 hv2.2

/-- C16. A non-positive `maxaccel` means no user limit: in a cycle of `update` with
`dt > 0`, `recip_dt = 1 / dt` and `max_vel > 0`, an axis whose `maxaccel` is `≤ 0` on entry
is planned with the acceleration limit `max_vel / dt`, the absolute ceiling: that is the
value of `max_accl` after the parameter check and the value the planner runs with. One
cycle at that limit spans `max_vel`, and every velocity `v` with `|v| ≤ max_vel` is reached
from rest in a single cycle, for a suitable command, by an axis with that `maxaccel`. -/
theorem update_nonpos_maxaccel (k : Consts) (s : Host) (hdt : 0 < s.dt)
    (hr : s.recip_dt = 1 / s.dt) (hm : 0 < s.max_vel)
    (i : Nat) (a : Axis) (hi : s.axes[i]? = some a) (hn : a.maxaccel ≤ 0) :
    (accel_limit s.max_vel s.recip_dt a.maxaccel a.scale).1 = s.max_vel / s.dt ∧
      (∃ b, (update k s).axes[i]? = some b ∧
        b.old_vel = plan_vel k s.max_vel s.dt s.recip_dt (s.max_vel / s.dt)
          (a.position_cmd * a.scale) a.old_pos a.old_vel a.accum) ∧
      s.max_vel / s.dt * s.dt = s.max_vel ∧
      ∀ v : ℚ, |v| ≤ s.max_vel →
        ∃ a2 : Axis, a2.maxaccel = a.maxaccel ∧ a2.old_vel = 0 ∧ a2.accum = a.accum ∧
          (update_axis k s.max_vel s.dt s.recip_dt a2).old_vel = v := by
  have hM : s.max_vel * s.recip_dt = s.max_vel / s.dt := by rw [hr, mul_one_div]
  have hlim : ∀ sc : ℚ, (accel_limit s.max_vel s.recip_dt a.maxaccel sc).1
      = s.max_vel / s.dt := by
    intro sc
    simp only [accel_limit, if_pos hn, hM]
  refine ⟨hlim a.scale, ⟨_, update_axes_get k s i a hi, ?_⟩,
    div_mul_cancel₀ _ (ne_of_gt hdt), ?_⟩
  · show plan_vel k s.max_vel s.dt s.recip_dt
        (accel_limit s.max_vel s.recip_dt a.maxaccel a.scale).1 _ _ _ _ = _
    rw [hlim a.scale]
  · intro v hv
    obtain ⟨P, hP⟩ : ∃ P : ℚ, P = (a.accum : ℚ) * (1 / k.STEP_MASK)
        + (v + 0) * (1 / 2) * (|v| / (s.max_vel / s.dt))
        - v * (|v| / (s.max_vel / s.dt) - 3 / 2 * s.dt) := ⟨_, rfl⟩
    refine ⟨{ a with scale := 1, position_cmd := P, old_pos := P * 1 - v * s.dt, old_vel := 0 },
      rfl, rfl, rfl, ?_⟩
    show plan_vel k s.max_vel s.dt s.recip_dt
        (accel_limit s.max_vel s.recip_dt a.maxaccel 1).1 (P * 1) (P * 1 - v * s.dt) 0 a.accum = v
    rw [hlim 1, hr]
    exact plan_vel_reach k s.max_vel s.dt v (P * 1) a.accum hdt hm hv (by rw [mul_one]; exact hP)

theorem update_nonpos_maxaccel_witness :
    (0 < freeHost.dt ∧ freeHost.recip_dt = 1 / freeHost.dt ∧ 0 < freeHost.max_vel ∧
        freeAxis.maxaccel ≤ 0) ∧
      (accel_limit freeHost.max_vel freeHost.recip_dt freeAxis.maxaccel freeAxis.scale).1
        = freeHost.max_vel / freeHost.dt ∧
      (∃ b, (update sampleConsts freeHost).axes[0]? = some b ∧
        b.old_vel = plan_vel sampleConsts freeHost.max_vel freeHost.dt freeHost.recip_dt
          (freeHost.max_vel / freeHost.dt)
          (freeAxis.position_cmd * freeAxis.scale) freeAxis.old_pos freeAxis.old_vel
          freeAxis.accum) ∧
      freeHost.max_vel / freeHost.dt * freeHost.dt = freeHost.max_vel ∧
      ∀ v : ℚ, |v| ≤ freeHost.max_vel →
        ∃ a2 : Axis, a2.maxaccel = freeAxis.maxaccel ∧ a2.old_vel = 0 ∧
          a2.accum = freeAxis.accum ∧
          (update_axis sampleConsts freeHost.max_vel freeHost.dt freeHost.recip_dt a2).old_vel
            = v :=
  ⟨by norm_num [freeHost, freeAxis, initHost, initAxis],
    update_nonpos_maxaccel sampleConsts freeHost
      (by norm_num [freeHost, initHost]) (by norm_num [freeHost, initHost])
      (by norm_num [freeHost, initHost]) 0 freeAxis rfl
      (by norm_num [freeAxis, initAxis])⟩

/-! ## The steady state of the planner -/

theorem update_iterate_timing (k : Consts) (s : Host) (n : Nat) :
    (Nat.iterate (update k) n s).dt = s.dt ∧
      (Nat.iterate (update k) n s).recip_dt = s.recip_dt ∧
      (Nat.iterate (update k) n s).max_vel = s.max_vel := by
  induction n generalizing s with
  | zero => exact ⟨rfl, rfl, rfl⟩
  | succ m ih =>
    rw [Function.iterate_succ_apply]
    exact ih (update k s)

theorem enable_word_lt (m sp c : Bool) : enable_word m sp c < 2 ^ 3 := by
  cases m <;> cases sp <;> cases c <;> decide

theorem enable_word_bits (m sp c : Bool) :
    (enable_word m sp c).testBit 0 = m ∧ (enable_word m sp c).testBit 1 = sp ∧
      (enable_word m sp c).testBit 2 = c := by
  cases m <;> cases sp <;> cases c <;> decide

theorem enable_word_high (m sp c : Bool) (n : Nat) (hn : 3 ≤ n) :
    (enable_word m sp c).testBit n = false := by
  apply Nat.testBit_lt_two_pow
  exact lt_of_lt_of_le (enable_word_lt m sp c) (Nat.pow_le_pow_right (by decide) hn)

theorem enable_word_decoded (m sp c : Bool) (f : Fw.State) :
    (Fw.update_outputs (enable_word m sp c) f).MOTOR_EN = m ∧
      (Fw.update_outputs (enable_word m sp c) f).SPINDLE_EN = sp ∧
      (Fw.update_outputs (enable_word m sp c) f).COOLANT_EN = c := by
  cases m <;> cases sp <;> cases c <;> exact ⟨rfl, rfl, rfl⟩

theorem update_outputs_word (s : Host) (hl : 1 < s.txBuf.length) :
    (update_outputs s).txBuf.getD 1 0
      = enable_word s.motor_enable s.spindle_enable s.coolant_enable := by
  simp [update_outputs, List.getD_eq_getElem?_getD, List.getElem?_set, hl]

/-- C13. Round trip of the enable bits of a `>CM2` frame: the word that `update_outputs`
of the driver writes to `txBuf[1]` has bit 0 equal to `motor_enable`, bit 1 equal to
`spindle_enable`, bit 2 equal to `coolant_enable` and every other bit zero, and
`update_outputs` of the firmware applied to that word drives `MOTOR_EN`, `SPINDLE_EN` and
`COOLANT_EN` high exactly for the booleans that were true. -/
theorem enable_bits_round_trip (s : Host) (f : Fw.State) (hl : 1 < s.txBuf.length) :
    ((update_outputs s).txBuf.getD 1 0).testBit 0 = s.motor_enable ∧
      ((update_outputs s).txBuf.getD 1 0).testBit 1 = s.spindle_enable ∧
      ((update_outputs s).txBuf.getD 1 0).testBit 2 = s.coolant_enable ∧
      (∀ n : Nat, 3 ≤ n → ((update_outputs s).txBuf.getD 1 0).testBit n = false) ∧
      (Fw.update_outputs ((update_outputs s).txBuf.getD 1 0) f).MOTOR_EN = s.motor_enable ∧
      (Fw.update_outputs ((update_outputs s).txBuf.getD 1 0) f).SPINDLE_EN
        = s.spindle_enable ∧
      (Fw.update_outputs ((update_outputs s).txBuf.getD 1 0) f).COOLANT_EN
        = s.coolant_enable := by
  rw [update_outputs_word s hl]
  obtain ⟨b0, b1, b2⟩ := enable_word_bits s.motor_enable s.spindle_enable s.coolant_enable
  obtain ⟨d0, d1, d2⟩ :=
    enable_word_decoded s.motor_enable s.spindle_enable s.coolant_enable f
  exact ⟨b0, b1, b2, fun n hn => enable_word_high _ _ _ n hn, d0, d1, d2⟩

theorem enable_bits_round_trip_witness :
    1 < enableHost.txBuf.length ∧
      ((update_outputs enableHost).txBuf.getD 1 0).testBit 0 = enableHost.motor_enable ∧
      ((update_outputs enableHost).txBuf.getD 1 0).testBit 1 = enableHost.spindle_enable ∧
      ((update_outputs enableHost).txBuf.getD 1 0).testBit 2 = enableHost.coolant_enable ∧
      (∀ n : Nat, 3 ≤ n → ((update_outputs enableHost).txBuf.getD 1 0).testBit n = false) ∧
      (Fw.update_outputs ((update_outputs enableHost).txBuf.getD 1 0) Fw.armed).MOTOR_EN
        = enableHost.motor_enable ∧
      (Fw.update_outputs ((update_outputs enableHost).txBuf.getD 1 0) Fw.armed).SPINDLE_EN
        = enableHost.spindle_enable ∧
      (Fw.update_outputs ((update_outputs enableHost).txBuf.getD 1 0) Fw.armed).COOLANT_EN
        = enableHost.coolant_enable :=
  ⟨by decide, enable_bits_round_trip enableHost Fw.armed (by decide)⟩

/-! ## The bus-silence timeout of the firmware -/

theorem count_cycles_supervision (f : Fw.State) :
    (Fw.count_cycles f).spi_timeout = f.spi_timeout ∧
      (Fw.count_cycles f).recoveries = f.recoveries := by
  simp only [Fw.count_cycles]
  split_ifs <;> exact ⟨rfl, rfl⟩

theorem dispatch_supervision (i : Fw.Input) (f : Fw.State) :
    (Fw.dispatch i f).spi_timeout = f.spi_timeout ∧
      (Fw.dispatch i f).recoveries = f.recoveries := by
  simp only [Fw.dispatch]
  split_ifs <;> exact ⟨rfl, rfl⟩

theorem dma_flags_supervision (i : Fw.Input) (f : Fw.State) :
    (Fw.dma_flags i f).spi_timeout = f.spi_timeout ∧
      (Fw.dma_flags i f).recoveries = f.recoveries := by
  simp only [Fw.dma_flags]
  split_ifs <;> exact ⟨rfl, rfl⟩

theorem blink_supervision (f : Fw.State) :
    (Fw.blink f).spi_timeout = f.spi_timeout ∧ (Fw.blink f).recoveries = f.recoveries := by
  simp only [Fw.blink]
  split_ifs <;> exact ⟨rfl, rfl⟩

theorem supervise_busy (i : Fw.Input) (f : Fw.State) (hb : i.SPIBUSY = true) :
    (Fw.supervise i f).spi_timeout = Fw.SPI_TIMEOUT ∧
      (Fw.supervise i f).recoveries = f.recoveries := by
  unfold Fw.supervise
  rw [if_pos hb]
  exact ⟨rfl, rfl⟩

theorem supervise_idle (i : Fw.Input) (f : Fw.State) (hb : i.SPIBUSY = false) :
    (Fw.supervise i f).spi_timeout = f.spi_timeout - 1 ∧
      (Fw.supervise i f).recoveries = f.recoveries + (if f.spi_timeout = 2 then 1 else 0) := by
  unfold Fw.supervise
  rw [if_neg (by rw [hb]; decide)]
  by_cases h0 : f.spi_timeout = 0
  · simp [h0, Fw.reset_board, Fw.update_pwm_duty, Fw.update_outputs]
  · by_cases h2 : f.spi_timeout = 2
    · simp [h2, Fw.reset_board, Fw.update_pwm_duty, Fw.update_outputs]
    · have h3 : ¬ (f.spi_timeout - 1 = 1) := by omega
      simp [h0, h2, h3]

theorem main_loop_busy (i : Fw.Input) (f : Fw.State) (hb : i.SPIBUSY = true) :
    (Fw.main_loop i f).spi_timeout = Fw.SPI_TIMEOUT ∧
      (Fw.main_loop i f).recoveries = f.recoveries := by
  unfold Fw.main_loop
  obtain ⟨a1, a2⟩ := blink_supervision (Fw.supervise i (Fw.dma_flags i (Fw.dispatch i
    (Fw.count_cycles { f with rxBuf := i.rx }))))
  obtain ⟨b1, b2⟩ := supervise_busy i (Fw.dma_flags i (Fw.dispatch i
    (Fw.count_cycles { f with rxBuf := i.rx }))) hb
  obtain ⟨_, c2⟩ := dma_flags_supervision i (Fw.dispatch i
    (Fw.count_cycles { f with rxBuf := i.rx }))
  obtain ⟨_, d2⟩ := dispatch_supervision i (Fw.count_cycles { f with rxBuf := i.rx })
  obtain ⟨_, e2⟩ := count_cycles_supervision { f with rxBuf := i.rx }
  exact ⟨a1.trans b1, a2.trans (b2.trans (c2.trans (d2.trans e2)))⟩

theorem main_loop_idle (i : Fw.Input) (f : Fw.State) (hb : i.SPIBUSY = false) :
    (Fw.main_loop i f).spi_timeout = f.spi_timeout - 1 ∧
      (Fw.main_loop i f).recoveries = f.recoveries + (if f.spi_timeout = 2 then 1 else 0) := by
  unfold Fw.main_loop
  obtain ⟨a1, a2⟩ := blink_supervision (Fw.supervise i (Fw.dma_flags i (Fw.dispatch i
    (Fw.count_cycles { f with rxBuf := i.rx }))))
  obtain ⟨b1, b2⟩ := supervise_idle i (Fw.dma_flags i (Fw.dispatch i
    (Fw.count_cycles { f with rxBuf := i.rx }))) hb
  obtain ⟨c1, c2⟩ := dma_flags_supervision i (Fw.dispatch i
    (Fw.count_cycles { f with rxBuf := i.rx }))
  obtain ⟨d1, d2⟩ := dispatch_supervision i (Fw.count_cycles { f with rxBuf := i.rx })
  obtain ⟨e1, e2⟩ := count_cycles_supervision { f with rxBuf := i.rx }
  have ht : (Fw.dma_flags i (Fw.dispatch i
      (Fw.count_cycles { f with rxBuf := i.rx }))).spi_timeout = f.spi_timeout :=
    c1.trans (d1.trans e1)
  have hrc : (Fw.dma_flags i (Fw.dispatch i
      (Fw.count_cycles { f with rxBuf := i.rx }))).recoveries = f.recoveries :=
    c2.trans (d2.trans e2)
  rw [ht, hrc] at b2
  rw [ht] at b1
  exact ⟨a1.trans b1, a2.trans b2⟩

theorem run_idle (is : List Fw.Input) (f : Fw.State) (hidle : ∀ i ∈ is, i.SPIBUSY = false) :
    (Fw.run is f).spi_timeout = f.spi_timeout - is.length ∧
      (Fw.run is f).recoveries = f.recoveries
        + (if 2 ≤ f.spi_timeout ∧ f.spi_timeout - 1 ≤ is.length then 1 else 0) := by
  induction is generalizing f with
  | nil =>
    refine ⟨rfl, ?_⟩
    show f.recoveries = _
    rw [if_neg (by simp only [List.length_nil]; omega)]
    rfl
  | cons i rest ih =>
    obtain ⟨h1, h2⟩ := main_loop_idle i f (hidle i (List.mem_cons_self i rest))
    obtain ⟨g1, g2⟩ := ih (Fw.main_loop i f) (fun x hx => hidle x (List.mem_cons_of_mem i hx))
    show (Fw.run rest (Fw.main_loop i f)).spi_timeout = _ ∧
      (Fw.run rest (Fw.main_loop i f)).recoveries = _
    rw [g1, g2, h1, h2]
    simp only [List.length_cons]
    refine ⟨by omega, ?_⟩
    split_ifs <;> omega

theorem init_supervision (g : Fw.State) :
    (Fw.init g).spi_timeout = 0 ∧ (Fw.init g).recoveries = 0 :=
  ⟨rfl, rfl⟩

/-- C12. Timeout recovery of the firmware link: after a main-loop iteration in which the
bus is busy, which reloads `spi_timeout` with `SPI_TIMEOUT`, over any number of following
iterations in which the bus is idle, the recovery block has run once if at least
`SPI_TIMEOUT - 1` idle iterations have passed and not at all before; it runs in an idle
iteration exactly when that iteration is the `(SPI_TIMEOUT - 1)`-th of them; and from
the state on entry to the main loop, where `spi_timeout` is `0`, no number of idle
iterations runs it. -/
theorem timeout_recovery (b : Fw.Input) (hb : b.SPIBUSY = true) (idles : List Fw.Input)
    (hidle : ∀ i ∈ idles, i.SPIBUSY = false) (f : Fw.State) :
    (Fw.main_loop b f).spi_timeout = Fw.SPI_TIMEOUT ∧
      (Fw.run (b :: idles) f).recoveries
        = f.recoveries + (if Fw.SPI_TIMEOUT - 1 ≤ idles.length then 1 else 0) ∧
      (∀ (pre post : List Fw.Input) (i : Fw.Input), idles = pre ++ i :: post →
        (Fw.main_loop i (Fw.run (b :: pre) f)).recoveries
          = (Fw.run (b :: pre) f).recoveries
            + (if pre.length + 1 = Fw.SPI_TIMEOUT - 1 then 1 else 0)) ∧
      (∀ g : Fw.State, (Fw.run idles (Fw.init g)).recoveries = 0 ∧
        (Fw.run idles (Fw.init g)).spi_timeout = 0) := by
  have hT : Fw.SPI_TIMEOUT = 1000 := rfl
  obtain ⟨h1, h2⟩ := main_loop_busy b f hb
  refine ⟨h1, ?_, ?_, ?_⟩
  · obtain ⟨_, g2⟩ := run_idle idles (Fw.main_loop b f) hidle
    show (Fw.run idles (Fw.main_loop b f)).recoveries = _
    rw [g2, h1, h2, hT]
    split_ifs <;> omega
  · intro pre post i hsplit
    have hpre : ∀ x ∈ pre, x.SPIBUSY = false := by
      intro x hx
      exact hidle x (by rw [hsplit]; exact List.mem_append_left _ hx)
    have hi : i.SPIBUSY = false :=
      hidle i (by rw [hsplit]; exact List.mem_append_right _ (List.mem_cons_self i post))
    obtain ⟨g1, _⟩ := run_idle pre (Fw.main_loop b f) hpre
    have g1b : (Fw.run (b :: pre) f).spi_timeout = Fw.SPI_TIMEOUT - pre.length := by
      show (Fw.run pre (Fw.main_loop b f)).spi_timeout = _
      rw [g1, h1]
    rw [(main_loop_idle i (Fw.run (b :: pre) f) hi).2, g1b, hT]
    split_ifs <;> omega
  · intro g
    obtain ⟨i1, i2⟩ := init_supervision g
    obtain ⟨g1, g2⟩ := run_idle idles (Fw.init g) hidle
    rw [g1, g2, i1, i2]
    refine ⟨?_, by omega⟩
    rw [if_neg (by omega)]

theorem timeout_recovery_witness :
    ((Fw.busy [0, 0, 0, 0, 0]).SPIBUSY = true ∧
        ∀ i ∈ List.replicate 1000 (Fw.idle [0, 0, 0, 0, 0]), i.SPIBUSY = false) ∧
      (Fw.main_loop (Fw.busy [0, 0, 0, 0, 0]) Fw.boot).spi_timeout = Fw.SPI_TIMEOUT ∧
      (Fw.run (Fw.busy [0, 0, 0, 0, 0] :: List.replicate 1000 (Fw.idle [0, 0, 0, 0, 0]))
          Fw.boot).recoveries
        = Fw.boot.recoveries
          + (if Fw.SPI_TIMEOUT - 1 ≤ (List.replicate 1000 (Fw.idle [0, 0, 0, 0, 0])).length
              then 1 else 0) ∧
      (∀ (pre post : List Fw.Input) (i : Fw.Input),
        List.replicate 1000 (Fw.idle [0, 0, 0, 0, 0]) = pre ++ i :: post →
        (Fw.main_loop i (Fw.run (Fw.busy [0, 0, 0, 0, 0] :: pre) Fw.boot)).recoveries
          = (Fw.run (Fw.busy [0, 0, 0, 0, 0] :: pre) Fw.boot).recoveries
            + (if pre.length + 1 = Fw.SPI_TIMEOUT - 1 then 1 else 0)) ∧
      (∀ g : Fw.State,
        (Fw.run (List.replicate 1000 (Fw.idle [0, 0, 0, 0, 0])) (Fw.init g)).recoveries = 0 ∧
        (Fw.run (List.replicate 1000 (Fw.idle [0, 0, 0, 0, 0])) (Fw.init g)).spi_timeout = 0) :=
  ⟨⟨rfl, fun i hi => by rw [List.eq_of_mem_replicate hi]; rfl⟩,
    timeout_recovery (Fw.busy [0, 0, 0, 0, 0]) rfl (List.replicate 1000 (Fw.idle [0, 0, 0, 0, 0]))
      (fun i hi => by rw [List.eq_of_mem_replicate hi]; rfl) Fw.boot⟩

/-! ## The elapsed-cycle counter of the dispatcher -/

theorem stepgen_get_position_length (g : Fw.Stepgen) (at0 : Nat) (buf : List Nat) :
    (Fw.stepgen_get_position g at0 buf).length = buf.length := by
  simp [Fw.stepgen_get_position, Fw.MAXGEN, List.range_succ]

theorem count_cycles_fields (f : Fw.State) :
    (Fw.count_cycles f).cycles = (if f.last_cmd = CM1 then wrap32 (f.cycles + 1) else f.cycles) ∧
      (Fw.count_cycles f).j = f.j ∧ (Fw.count_cycles f).last_cmd = f.last_cmd ∧
      (Fw.count_cycles f).spi_data_ready = f.spi_data_ready ∧
      (Fw.count_cycles f).rxBuf = f.rxBuf ∧
      (Fw.count_cycles f).txBuf.length = f.txBuf.length := by
  simp only [Fw.count_cycles]
  split_ifs
  · exact ⟨rfl, rfl, rfl, rfl, rfl, stepgen_get_position_length _ _ _⟩
  · exact ⟨rfl, rfl, rfl, rfl, rfl, rfl⟩
  · exact ⟨rfl, rfl, rfl, rfl, rfl, rfl⟩

theorem set_zero_getD (l : List Nat) (x n : Nat) :
    (l.set 0 x).getD (n + 1) 0 = l.getD (n + 1) 0 := by
  cases l <;> rfl

theorem dma_flags_fields (i : Fw.Input) (h : Fw.State) :
    (Fw.dma_flags i h).j = h.j ∧ (Fw.dma_flags i h).cycles = h.cycles ∧
      (Fw.dma_flags i h).last_cmd = h.last_cmd ∧
      (Fw.dma_flags i h).spi_data_ready = (i.CHBCIF || h.spi_data_ready) ∧
      (Fw.dma_flags i h).txBuf.getD 1 0 = h.txBuf.getD 1 0 ∧
      (Fw.dma_flags i h).txBuf.getD 2 0 = h.txBuf.getD 2 0 := by
  unfold Fw.dma_flags
  cases i.CHBCIF <;> cases i.CHDHIF
  all_goals first
    | exact ⟨rfl, rfl, rfl, rfl, rfl, rfl⟩
    | exact ⟨rfl, rfl, rfl, rfl, set_zero_getD _ _ 0, set_zero_getD _ _ 1⟩

theorem supervise_fields (i : Fw.Input) (h : Fw.State) :
    (Fw.supervise i h).j = h.j ∧ (Fw.supervise i h).cycles = h.cycles ∧
      (Fw.supervise i h).last_cmd = h.last_cmd ∧
      (Fw.supervise i h).spi_data_ready = h.spi_data_ready ∧
      (Fw.supervise i h).txBuf = h.txBuf := by
  simp only [Fw.supervise]
  split_ifs <;> exact ⟨rfl, rfl, rfl, rfl, rfl⟩

theorem blink_fields (h : Fw.State) :
    (Fw.blink h).j = h.j ∧ (Fw.blink h).cycles = h.cycles ∧
      (Fw.blink h).last_cmd = h.last_cmd ∧
      (Fw.blink h).spi_data_ready = h.spi_data_ready ∧
      (Fw.blink h).txBuf = h.txBuf := by
  simp only [Fw.blink]
  split_ifs <;> exact ⟨rfl, rfl, rfl, rfl, rfl⟩

theorem after_dispatch_fields (i : Fw.Input) (h : Fw.State) :
    (Fw.blink (Fw.supervise i (Fw.dma_flags i h))).j = h.j ∧
      (Fw.blink (Fw.supervise i (Fw.dma_flags i h))).cycles = h.cycles ∧
      (Fw.blink (Fw.supervise i (Fw.dma_flags i h))).last_cmd = h.last_cmd ∧
      (Fw.blink (Fw.supervise i (Fw.dma_flags i h))).spi_data_ready
        = (i.CHBCIF || h.spi_data_ready) ∧
      (Fw.blink (Fw.supervise i (Fw.dma_flags i h))).txBuf.getD 1 0 = h.txBuf.getD 1 0 ∧
      (Fw.blink (Fw.supervise i (Fw.dma_flags i h))).txBuf.getD 2 0 = h.txBuf.getD 2 0 := by
  obtain ⟨a1, a2, a3, a4, a5⟩ := blink_fields (Fw.supervise i (Fw.dma_flags i h))
  obtain ⟨b1, b2, b3, b4, b5⟩ := supervise_fields i (Fw.dma_flags i h)
  obtain ⟨c1, c2, c3, c4, c5, c6⟩ := dma_flags_fields i h
  refine ⟨a1.trans (b1.trans c1), a2.trans (b2.trans c2), a3.trans (b3.trans c3),
    a4.trans (b4.trans c4), ?_, ?_⟩
  · rw [a5, b5]; exact c5
  · rw [a5, b5]; exact c6

theorem dispatch_quiet (i : Fw.Input) (g : Fw.State) (hq : g.spi_data_ready = false) :
    Fw.dispatch i g = g := by
  unfold Fw.dispatch
  rw [if_neg (by rw [hq]; decide)]

theorem dispatch_cm1 (i : Fw.Input) (g : Fw.State) (hr : g.spi_data_ready = true)
    (hw : g.rxBuf.getD 0 0 = CM1) :
    (Fw.dispatch i g).j = g.cycles ∧ (Fw.dispatch i g).cycles = 0 ∧
      (Fw.dispatch i g).last_cmd = CM1 ∧ (Fw.dispatch i g).spi_data_ready = false := by
  have h1 : ¬ (g.rxBuf.getD 0 0 = RST) := by rw [hw]; decide
  simp only [Fw.dispatch, if_pos hr, if_neg h1, if_pos hw]
  exact ⟨trivial, trivial, hw, trivial⟩

theorem dispatch_other (i : Fw.Input) (g : Fw.State) (hr : g.spi_data_ready = true)
    (hw : g.rxBuf.getD 0 0 ≠ CM1) :
    (Fw.dispatch i g).j = g.j ∧ (Fw.dispatch i g).cycles = g.cycles ∧
      (Fw.dispatch i g).last_cmd = g.rxBuf.getD 0 0 ∧
      (Fw.dispatch i g).spi_data_ready = false := by
  simp only [Fw.dispatch, if_pos hr, if_neg hw]
  split_ifs <;> exact ⟨rfl, rfl, rfl, rfl⟩

theorem dispatch_cm2 (i : Fw.Input) (g : Fw.State) (hr : g.spi_data_ready = true)
    (hw : g.rxBuf.getD 0 0 = CM2) :
    (Fw.dispatch i g).txBuf = (g.txBuf.set 1 (Fw.read_inputs i)).set 2 (toWord g.j) := by
  have h1 : ¬ (g.rxBuf.getD 0 0 = RST) := by rw [hw]; decide
  have h2 : ¬ (g.rxBuf.getD 0 0 = CM1) := by rw [hw]; decide
  simp only [Fw.dispatch, if_pos hr, if_neg h1, if_neg h2, if_pos hw]
  rfl

theorem set_set_getD (l : List Nat) (x y : Nat) (h : 2 < l.length) :
    ((l.set 1 x).set 2 y).getD 1 0 = x ∧ ((l.set 1 x).set 2 y).getD 2 0 = y := by
  rcases l with _ | ⟨a, _ | ⟨b, _ | ⟨c, t⟩⟩⟩
  · simp at h
  · simp at h
  · simp at h
  · exact ⟨rfl, rfl⟩

theorem main_loop_quiet (i : Fw.Input) (f : Fw.State) (hq : f.spi_data_ready = false) :
    (Fw.main_loop i f).j = f.j ∧
      (Fw.main_loop i f).cycles
        = (if f.last_cmd = CM1 then wrap32 (f.cycles + 1) else f.cycles) ∧
      (Fw.main_loop i f).last_cmd = f.last_cmd ∧
      (Fw.main_loop i f).spi_data_ready = i.CHBCIF := by
  obtain ⟨c1, c2, c3, c4, _, _⟩ := count_cycles_fields { f with rxBuf := i.rx }
  have hd := dispatch_quiet i (Fw.count_cycles { f with rxBuf := i.rx }) (c4.trans hq)
  obtain ⟨a1, a2, a3, a4, _, _⟩ :=
    after_dispatch_fields i (Fw.dispatch i (Fw.count_cycles { f with rxBuf := i.rx }))
  unfold Fw.main_loop
  rw [a1, a2, a3, a4, hd, c1, c2, c3, c4]
  exact ⟨rfl, rfl, rfl, by rw [show ({ f with rxBuf := i.rx } : Fw.State).spi_data_ready
    = f.spi_data_ready from rfl, hq, Bool.or_false]⟩

theorem main_loop_cm1 (i : Fw.Input) (f : Fw.State) (hr : f.spi_data_ready = true)
    (hw : i.rx.getD 0 0 = CM1) :
    (Fw.main_loop i f).j = (if f.last_cmd = CM1 then wrap32 (f.cycles + 1) else f.cycles) ∧
      (Fw.main_loop i f).cycles = 0 ∧
      (Fw.main_loop i f).last_cmd = CM1 ∧
      (Fw.main_loop i f).spi_data_ready = i.CHBCIF := by
  obtain ⟨c1, _, _, c4, c5, _⟩ := count_cycles_fields { f with rxBuf := i.rx }
  obtain ⟨d1, d2, d3, d4⟩ := dispatch_cm1 i (Fw.count_cycles { f with rxBuf := i.rx })
    (c4.trans hr) (by rw [c5]; exact hw)
  obtain ⟨a1, a2, a3, a4, _, _⟩ :=
    after_dispatch_fields i (Fw.dispatch i (Fw.count_cycles { f with rxBuf := i.rx }))
  unfold Fw.main_loop
  rw [a1, a2, a3, a4, d1, d2, d3, d4, c1, Bool.or_false]
  exact ⟨rfl, rfl, rfl, rfl⟩

theorem main_loop_other (i : Fw.Input) (f : Fw.State) (hr : f.spi_data_ready = true)
    (hw : i.rx.getD 0 0 ≠ CM1) :
    (Fw.main_loop i f).j = f.j ∧
      (Fw.main_loop i f).cycles
        = (if f.last_cmd = CM1 then wrap32 (f.cycles + 1) else f.cycles) ∧
      (Fw.main_loop i f).last_cmd = i.rx.getD 0 0 ∧
      (Fw.main_loop i f).spi_data_ready = i.CHBCIF := by
  obtain ⟨c1, c2, _, c4, c5, _⟩ := count_cycles_fields { f with rxBuf := i.rx }
  obtain ⟨d1, d2, d3, d4⟩ := dispatch_other i (Fw.count_cycles { f with rxBuf := i.rx })
    (c4.trans hr) (by rw [c5]; exact hw)
  obtain ⟨a1, a2, a3, a4, _, _⟩ :=
    after_dispatch_fields i (Fw.dispatch i (Fw.count_cycles { f with rxBuf := i.rx }))
  unfold Fw.main_loop
  rw [a1, a2, a3, a4, d1, d2, d3, d4, c1, c2, c5, Bool.or_false]
  exact ⟨rfl, rfl, rfl, rfl⟩

theorem main_loop_cm2 (i : Fw.Input) (f : Fw.State) (hr : f.spi_data_ready = true)
    (hw : i.rx.getD 0 0 = CM2) (hl : 2 < f.txBuf.length) :
    (Fw.main_loop i f).txBuf.getD 1 0 = Fw.read_inputs i ∧
      (Fw.main_loop i f).txBuf.getD 2 0 = toWord f.j := by
  obtain ⟨_, c2, _, c4, c5, c6⟩ := count_cycles_fields { f with rxBuf := i.rx }
  have hd := dispatch_cm2 i (Fw.count_cycles { f with rxBuf := i.rx })
    (c4.trans hr) (by rw [c5]; exact hw)
  obtain ⟨_, _, _, _, a5, a6⟩ :=
    after_dispatch_fields i (Fw.dispatch i (Fw.count_cycles { f with rxBuf := i.rx }))
  have hl2 : 2 < (Fw.count_cycles { f with rxBuf := i.rx }).txBuf.length := by
    rw [c6]; exact hl
  unfold Fw.main_loop
  rw [a5, a6, hd, c2]
  exact set_set_getD _ _ _ hl2

theorem dma_flags_length (i : Fw.Input) (h : Fw.State) :
    (Fw.dma_flags i h).txBuf.length = h.txBuf.length := by
  unfold Fw.dma_flags
  cases i.CHBCIF <;> cases i.CHDHIF
  all_goals first
    | rfl
    | exact List.length_set _ _ _

theorem main_loop_quiet_length (i : Fw.Input) (f : Fw.State) (hq : f.spi_data_ready = false) :
    (Fw.main_loop i f).txBuf.length = f.txBuf.length := by
  obtain ⟨_, _, _, c4, _, c6⟩ := count_cycles_fields { f with rxBuf := i.rx }
  have hd := dispatch_quiet i (Fw.count_cycles { f with rxBuf := i.rx }) (c4.trans hq)
  unfold Fw.main_loop
  rw [(blink_fields _).2.2.2.2, (supervise_fields i _).2.2.2.2, dma_flags_length, hd, c6]

theorem wrap32_succ (c : Int) (h0 : 0 ≤ c) (h1 : c + 1 < 2 ^ 31) : wrap32 (c + 1) = c + 1 := by
  simp only [wrap32]
  omega

theorem quiet_run (qs : List Fw.Input) (f : Fw.State) (hq : ∀ i ∈ qs, i.CHBCIF = false)
    (hf : f.spi_data_ready = false) :
    (Fw.run qs f).j = f.j ∧ (Fw.run qs f).last_cmd = f.last_cmd ∧
      (Fw.run qs f).spi_data_ready = false ∧
      (Fw.run qs f).txBuf.length = f.txBuf.length ∧
      (f.last_cmd ≠ CM1 → (Fw.run qs f).cycles = f.cycles) ∧
      (f.last_cmd = CM1 → 0 ≤ f.cycles → f.cycles + qs.length < 2 ^ 31 →
        (Fw.run qs f).cycles = f.cycles + qs.length) := by
  induction qs generalizing f with
  | nil =>
    refine ⟨rfl, rfl, hf, rfl, fun _ => rfl, fun _ _ _ => ?_⟩
    show f.cycles = f.cycles + ((0 : Nat) : Int)
    simp
  | cons i rest ih =>
    obtain ⟨m1, m2, m3, m4⟩ := main_loop_quiet i f hf
    have m5 := main_loop_quiet_length i f hf
    have hi : i.CHBCIF = false := hq i (List.mem_cons_self i rest)
    obtain ⟨r1, r2, r3, r4, r5, r6⟩ := ih (Fw.main_loop i f)
      (fun x hx => hq x (List.mem_cons_of_mem i hx)) (m4.trans hi)
    show (Fw.run rest (Fw.main_loop i f)).j = f.j ∧
      (Fw.run rest (Fw.main_loop i f)).last_cmd = f.last_cmd ∧
      (Fw.run rest (Fw.main_loop i f)).spi_data_ready = false ∧
      (Fw.run rest (Fw.main_loop i f)).txBuf.length = f.txBuf.length ∧
      (f.last_cmd ≠ CM1 → (Fw.run rest (Fw.main_loop i f)).cycles = f.cycles) ∧
      (f.last_cmd = CM1 → 0 ≤ f.cycles → f.cycles + (i :: rest).length < 2 ^ 31 →
        (Fw.run rest (Fw.main_loop i f)).cycles = f.cycles + (i :: rest).length)
    refine ⟨r1.trans m1, r2.trans m3, r3, r4.trans m5, ?_, ?_⟩
    · intro hne
      rw [r5 (by rw [m3]; exact hne), m2, if_neg hne]
    · intro he h0 hlen
      simp only [List.length_cons, Nat.cast_add, Nat.cast_one] at hlen ⊢
      have hc : (Fw.main_loop i f).cycles = f.cycles + 1 := by
        rw [m2, if_pos he]
        exact wrap32_succ _ h0 (by omega)
      rw [r6 (by rw [m3]; exact he) (by rw [hc]; omega) (by rw [hc]; omega), hc]
      ring

theorem run_append (as bs : List Fw.Input) (f : Fw.State) :
    Fw.run (as ++ bs) f = Fw.run bs (Fw.run as f) := by
  induction as generalizing f with
  | nil => rfl
  | cons i rest ih => exact ih (Fw.main_loop i f)

/-- C15 as stated fails. In a run of nine iterations from the state on entry to the main
loop, a `>CM1` frame is dispatched in iteration 2, a `>CM2` frame in iteration 5 and
the next `>CM1` frame in iteration 9: seven iterations lie between the two `>CM1`
dispatches, but `j` receives `3`, the count reached when the `>CM2` frame was dispatched. -/
theorem dispatch_j_stops_counting :
    (Fw.run (Fw.script.take 1) Fw.boot).spi_data_ready = true ∧
      (Fw.run (Fw.script.take 2) Fw.boot).last_cmd = CM1 ∧
      (Fw.run (Fw.script.take 2) Fw.boot).cycles = 0 ∧
      (Fw.run (Fw.script.take 4) Fw.boot).spi_data_ready = true ∧
      (Fw.run (Fw.script.take 5) Fw.boot).last_cmd = CM2 ∧
      (Fw.run (Fw.script.take 5) Fw.boot).cycles = 3 ∧
      (Fw.run (Fw.script.take 8) Fw.boot).spi_data_ready = true ∧
      (Fw.run (Fw.script.take 8) Fw.boot).cycles = 3 ∧
      (Fw.run Fw.script Fw.boot).last_cmd = CM1 ∧
      (Fw.run Fw.script Fw.boot).cycles = 0 ∧
      (Fw.run Fw.script Fw.boot).j = 3 := by
  decide

theorem main_loop_step (i : Fw.Input) (g : Fw.State) :
    (Fw.main_loop i g).cycles
        = (if g.spi_data_ready = true ∧ i.rx.getD 0 0 = CM1 then 0
            else if g.last_cmd = CM1 then wrap32 (g.cycles + 1) else g.cycles) ∧
      (Fw.main_loop i g).j
        = (if g.spi_data_ready = true ∧ i.rx.getD 0 0 = CM1 then
            (if g.last_cmd = CM1 then wrap32 (g.cycles + 1) else g.cycles)
            else g.j) ∧
      (Fw.main_loop i g).last_cmd
        = (if g.spi_data_ready = true then i.rx.getD 0 0 else g.last_cmd) ∧
      (Fw.main_loop i g).spi_data_ready = i.CHBCIF := by
  by_cases hr : g.spi_data_ready = true
  · by_cases hw : i.rx.getD 0 0 = CM1
    · obtain ⟨m1, m2, m3, m4⟩ := main_loop_cm1 i g hr hw
      rw [if_pos ⟨hr, hw⟩, if_pos ⟨hr, hw⟩, if_pos hr]
      exact ⟨m2, m1, m3.trans hw.symm, m4⟩
    · obtain ⟨m1, m2, m3, m4⟩ := main_loop_other i g hr hw
      have hn : ¬ (g.spi_data_ready = true ∧ i.rx.getD 0 0 = CM1) := fun h => hw h.2
      rw [if_neg hn, if_neg hn, if_pos hr]
      exact ⟨m2, m1, m3, m4⟩
  · obtain ⟨m1, m2, m3, m4⟩ := main_loop_quiet i g (Bool.eq_false_iff.mpr hr)
    have hn : ¬ (g.spi_data_ready = true ∧ i.rx.getD 0 0 = CM1) := fun h => hr h.1
    rw [if_neg hn, if_neg hn, if_neg hr]
    exact ⟨m2, m1, m3, m4⟩

theorem wrap32_step (c : Int) (n : Nat) :
    wrap32 (wrap32 (c + 1) + n) = wrap32 (c + (1 + n : Nat)) := by
  simp only [wrap32, Nat.cast_add, Nat.cast_one]
  omega

theorem run_until_cm1 (mid : List Fw.Input) (y2 : Fw.Input) (g : Fw.State)
    (hmid : some CM1 ∉ Fw.dispatched mid g)
    (h2 : (Fw.run mid g).spi_data_ready = true) (hy2 : y2.rx.getD 0 0 = CM1) :
    (Fw.run (mid ++ [y2]) g).cycles = 0 ∧
      (g.last_cmd = CM1 →
        (Fw.run (mid ++ [y2]) g).j
          = wrap32 (g.cycles + Fw.counted (Fw.dispatched (mid ++ [y2]) g))) ∧
      (g.last_cmd ≠ CM1 → (Fw.run (mid ++ [y2]) g).j = g.cycles) := by
  induction mid generalizing g with
  | nil =>
    have hr : g.spi_data_ready = true := h2
    obtain ⟨m1, m2, _, _⟩ := main_loop_step y2 g
    rw [if_pos ⟨hr, hy2⟩] at m1 m2
    refine ⟨m1, ?_, ?_⟩
    · intro hc
      show (Fw.main_loop y2 g).j = _
      rw [m2, if_pos hc]
      have hd : Fw.dispatched ([] ++ [y2]) g = [some CM1] := by
        show (if g.spi_data_ready then some (y2.rx.getD 0 0) else none) :: [] = _
        rw [hr, hy2]; rfl
      rw [hd]
      rfl
    · intro hc
      show (Fw.main_loop y2 g).j = _
      rw [m2, if_neg hc]
  | cons i rest ih =>
    have hd : Fw.dispatched (i :: rest) g
        = (if g.spi_data_ready then some (i.rx.getD 0 0) else none)
          :: Fw.dispatched rest (Fw.main_loop i g) := rfl
    have hd2 : Fw.dispatched (i :: rest ++ [y2]) g
        = (if g.spi_data_ready then some (i.rx.getD 0 0) else none)
          :: Fw.dispatched (rest ++ [y2]) (Fw.main_loop i g) := rfl
    rw [hd] at hmid
    have hrest : some CM1 ∉ Fw.dispatched rest (Fw.main_loop i g) :=
      fun h => hmid (List.mem_cons_of_mem _ h)
    obtain ⟨r1, r2, r3⟩ := ih (Fw.main_loop i g) hrest h2
    obtain ⟨m1, _, m3, _⟩ := main_loop_step i g
    show (Fw.run (rest ++ [y2]) (Fw.main_loop i g)).cycles = 0 ∧
      (g.last_cmd = CM1 → (Fw.run (rest ++ [y2]) (Fw.main_loop i g)).j = _) ∧
      (g.last_cmd ≠ CM1 → (Fw.run (rest ++ [y2]) (Fw.main_loop i g)).j = g.cycles)
    by_cases hr : g.spi_data_ready = true
    · have hw : i.rx.getD 0 0 ≠ CM1 := by
        intro hw
        apply hmid
        rw [hr, hw]
        exact List.mem_cons_self _ _
      have hn : ¬ (g.spi_data_ready = true ∧ i.rx.getD 0 0 = CM1) := fun h => hw h.2
      rw [if_neg hn] at m1
      rw [if_pos hr] at m3
      have hstop : (Fw.main_loop i g).last_cmd ≠ CM1 := by rw [m3]; exact hw
      refine ⟨r1, ?_, ?_⟩
      · intro hc
        rw [r3 hstop, m1, if_pos hc, hd2, hr]
        show _ = wrap32 (g.cycles + ((if i.rx.getD 0 0 = CM1 then
          1 + Fw.counted (Fw.dispatched (rest ++ [y2]) (Fw.main_loop i g)) else 1 : Nat) : Int))
        rw [if_neg hw]
        rfl
      · intro hc
        rw [r3 hstop, m1, if_neg hc]
    · have hq : g.spi_data_ready = false := Bool.eq_false_iff.mpr hr
      have hn : ¬ (g.spi_data_ready = true ∧ i.rx.getD 0 0 = CM1) := fun h => hr h.1
      rw [if_neg hn] at m1
      rw [if_neg hr] at m3
      refine ⟨r1, ?_, ?_⟩
      · intro hc
        rw [r2 (m3.trans hc), m1, if_pos hc, hd2, hq]
        exact wrap32_step _ _
      · intro hc
        rw [r3 (by rw [m3]; exact hc), m1, if_neg hc]

theorem dispatch_length (i : Fw.Input) (g : Fw.State) (h : 2 < g.txBuf.length) :
    2 < (Fw.dispatch i g).txBuf.length := by
  simp only [Fw.dispatch]
  split_ifs
  · exact h
  · exact h
  · show 2 < ((g.txBuf.set 1 (Fw.read_inputs i)).set 2 (toWord g.j)).length
    rw [List.length_set, List.length_set]
    exact h
  · exact h
  · show 2 < ((List.range Fw.BUFSIZE).map (fun n => compl32 (g.rxBuf.getD n 0))).length
    rw [List.length_map, List.length_range]
    decide
  · exact h
  · exact h

theorem main_loop_length (i : Fw.Input) (f : Fw.State) (h : 2 < f.txBuf.length) :
    2 < (Fw.main_loop i f).txBuf.length := by
  obtain ⟨_, _, _, _, _, c6⟩ := count_cycles_fields { f with rxBuf := i.rx }
  have hd := dispatch_length i (Fw.count_cycles { f with rxBuf := i.rx })
    (by rw [c6]; exact h)
  unfold Fw.main_loop
  rw [(blink_fields _).2.2.2.2, (supervise_fields i _).2.2.2.2, dma_flags_length]
  exact hd

theorem run_length (is : List Fw.Input) (f : Fw.State) (h : 2 < f.txBuf.length) :
    2 < (Fw.run is f).txBuf.length := by
  induction is generalizing f with
  | nil => exact h
  | cons i rest ih => exact ih (Fw.main_loop i f) (main_loop_length i f h)

theorem run_no_cm1_j (mid : List Fw.Input) (g : Fw.State)
    (hmid : some CM1 ∉ Fw.dispatched mid g) : (Fw.run mid g).j = g.j := by
  induction mid generalizing g with
  | nil => rfl
  | cons i rest ih =>
    have hd : Fw.dispatched (i :: rest) g
        = (if g.spi_data_ready then some (i.rx.getD 0 0) else none)
          :: Fw.dispatched rest (Fw.main_loop i g) := rfl
    rw [hd] at hmid
    have hn : ¬ (g.spi_data_ready = true ∧ i.rx.getD 0 0 = CM1) := by
      intro hc
      apply hmid
      rw [hc.1, hc.2]
      exact List.mem_cons_self _ _
    show (Fw.run rest (Fw.main_loop i g)).j = g.j
    rw [ih (Fw.main_loop i g) (fun h => hmid (List.mem_cons_of_mem _ h)),
      (main_loop_step i g).2.1, if_neg hn]

/-- C15, as the code has it. Elapsed-cycle report of the dispatcher, for every run of the
main loop from every state. In each iteration, `cycles` is reset to `0` when a `>CM1` frame
is dispatched, advances by one when the iteration begins while the last dispatched command
is `>CM1`, and stands still otherwise; `j` receives the value of `cycles` when a `>CM1`
frame is dispatched and changes in no other iteration; `last_cmd` becomes the tag of every
dispatched frame. So, when an iteration `y1` of a run dispatches a `>CM1` frame and the
iterations `mid` after it dispatch no `>CM1` frame: a `>CM1` frame dispatched next gives `j`
the number of iterations since `y1` up to and including the first one that dispatched a
frame with another tag (all of them when none did), as a signed 32-bit count, and resets
`cycles`; and a `>CM2` frame dispatched next writes the `j` of `y1` into reply word
`txBuf[2]` and the input bits into `txBuf[1]`. -/
theorem elapsed_cycle_report (f : Fw.State) (pre mid : List Fw.Input) (y1 y2 : Fw.Input)
    (h1 : (Fw.run pre f).spi_data_ready = true) (hy1 : y1.rx.getD 0 0 = CM1)
    (hmid : some CM1 ∉ Fw.dispatched mid (Fw.run (pre ++ [y1]) f))
    (h2 : (Fw.run (pre ++ [y1] ++ mid) f).spi_data_ready = true) :
    ((Fw.run (pre ++ [y1]) f).j
        = (if (Fw.run pre f).last_cmd = CM1 then wrap32 ((Fw.run pre f).cycles + 1)
            else (Fw.run pre f).cycles) ∧
      (Fw.run (pre ++ [y1]) f).cycles = 0) ∧
      (y2.rx.getD 0 0 = CM1 →
        (Fw.run (pre ++ [y1] ++ mid ++ [y2]) f).j
          = wrap32 (Fw.counted (Fw.dispatched (mid ++ [y2]) (Fw.run (pre ++ [y1]) f))) ∧
        ((Fw.counted (Fw.dispatched (mid ++ [y2]) (Fw.run (pre ++ [y1]) f)) : Int) < 2 ^ 31 →
          (Fw.run (pre ++ [y1] ++ mid ++ [y2]) f).j
            = Fw.counted (Fw.dispatched (mid ++ [y2]) (Fw.run (pre ++ [y1]) f))) ∧
        (Fw.run (pre ++ [y1] ++ mid ++ [y2]) f).cycles = 0) ∧
      (y2.rx.getD 0 0 = CM2 → 2 < f.txBuf.length →
        (Fw.run (pre ++ [y1] ++ mid ++ [y2]) f).txBuf.getD 1 0 = Fw.read_inputs y2 ∧
        (Fw.run (pre ++ [y1] ++ mid ++ [y2]) f).txBuf.getD 2 0
          = toWord (Fw.run (pre ++ [y1]) f).j) ∧
      (∀ (i : Fw.Input) (g : Fw.State),
        (Fw.main_loop i g).cycles
            = (if g.spi_data_ready = true ∧ i.rx.getD 0 0 = CM1 then 0
                else if g.last_cmd = CM1 then wrap32 (g.cycles + 1) else g.cycles) ∧
          (Fw.main_loop i g).j
            = (if g.spi_data_ready = true ∧ i.rx.getD 0 0 = CM1 then
                (if g.last_cmd = CM1 then wrap32 (g.cycles + 1) else g.cycles)
                else g.j) ∧
          (Fw.main_loop i g).last_cmd
            = (if g.spi_data_ready = true then i.rx.getD 0 0 else g.last_cmd) ∧
          (Fw.main_loop i g).spi_data_ready = i.CHBCIF) ∧
      (∀ (i : Fw.Input) (g : Fw.State), g.spi_data_ready = true → i.rx.getD 0 0 = CM2 →
        2 < g.txBuf.length →
        (Fw.main_loop i g).txBuf.getD 1 0 = Fw.read_inputs i ∧
        (Fw.main_loop i g).txBuf.getD 2 0 = toWord g.j) := by
  have e1 : Fw.run (pre ++ [y1]) f = Fw.main_loop y1 (Fw.run pre f) := by
    rw [run_append]; rfl
  obtain ⟨a1, a2, a3, _⟩ := main_loop_cm1 y1 (Fw.run pre f) h1 hy1
  have e2 : Fw.run (pre ++ [y1] ++ mid ++ [y2]) f
      = Fw.run (mid ++ [y2]) (Fw.run (pre ++ [y1]) f) := by
    rw [List.append_assoc (pre ++ [y1]) mid [y2], run_append]
  have e3 : Fw.run (pre ++ [y1] ++ mid) f = Fw.run mid (Fw.run (pre ++ [y1]) f) :=
    run_append _ _ _
  have hc0 : (Fw.run (pre ++ [y1]) f).cycles = 0 := by rw [e1]; exact a2
  have hl0 : (Fw.run (pre ++ [y1]) f).last_cmd = CM1 := by rw [e1]; exact a3
  refine ⟨⟨by rw [e1]; exact a1, hc0⟩, ?_, ?_, main_loop_step, main_loop_cm2⟩
  · intro hy2
    obtain ⟨r1, r2, _⟩ := run_until_cm1 mid y2 (Fw.run (pre ++ [y1]) f) hmid
      (by rw [← e3]; exact h2) hy2
    have hj := r2 hl0
    rw [hc0, zero_add] at hj
    rw [e2]
    refine ⟨hj, ?_, r1⟩
    intro hb
    rw [hj]
    simp only [wrap32]
    omega
  · intro hy2 hl
    have e4 : Fw.run (mid ++ [y2]) (Fw.run (pre ++ [y1]) f)
        = Fw.main_loop y2 (Fw.run mid (Fw.run (pre ++ [y1]) f)) := by
      rw [run_append]; rfl
    obtain ⟨d1, d2⟩ := main_loop_cm2 y2 (Fw.run mid (Fw.run (pre ++ [y1]) f))
      (by rw [← e3]; exact h2) hy2 (by rw [← e3]; exact run_length _ f hl)
    rw [e2, e4, d1, d2, run_no_cm1_j mid _ hmid]
    exact ⟨rfl, rfl⟩

theorem elapsed_cycle_report_witness :
    ((Fw.run Fw.fourPre Fw.boot).spi_data_ready = true ∧
        (Fw.busy Fw.cm1Frame).rx.getD 0 0 = CM1 ∧
        some CM1 ∉ Fw.dispatched Fw.fourMid (Fw.run (Fw.fourPre ++ [Fw.busy Fw.cm1Frame]) Fw.boot) ∧
        (Fw.run (Fw.fourPre ++ [Fw.busy Fw.cm1Frame] ++ Fw.fourMid) Fw.boot).spi_data_ready = true) ∧
      ((Fw.run (Fw.fourPre ++ [Fw.busy Fw.cm1Frame]) Fw.boot).j
          = (if (Fw.run Fw.fourPre Fw.boot).last_cmd = CM1 then
              wrap32 ((Fw.run Fw.fourPre Fw.boot).cycles + 1)
              else (Fw.run Fw.fourPre Fw.boot).cycles) ∧
        (Fw.run (Fw.fourPre ++ [Fw.busy Fw.cm1Frame]) Fw.boot).cycles = 0) ∧
      ((Fw.busy Fw.cm1Frame).rx.getD 0 0 = CM1 →
        (Fw.run (Fw.fourPre ++ [Fw.busy Fw.cm1Frame] ++ Fw.fourMid ++ [Fw.busy Fw.cm1Frame]) Fw.boot).j
          = wrap32 (Fw.counted (Fw.dispatched (Fw.fourMid ++ [Fw.busy Fw.cm1Frame])
            (Fw.run (Fw.fourPre ++ [Fw.busy Fw.cm1Frame]) Fw.boot))) ∧
        (((Fw.counted (Fw.dispatched (Fw.fourMid ++ [Fw.busy Fw.cm1Frame])
            (Fw.run (Fw.fourPre ++ [Fw.busy Fw.cm1Frame]) Fw.boot))
            : Nat) : Int) < 2 ^ 31 →
          (Fw.run (Fw.fourPre ++ [Fw.busy Fw.cm1Frame] ++ Fw.fourMid ++ [Fw.busy Fw.cm1Frame]) Fw.boot).j
            = Fw.counted (Fw.dispatched (Fw.fourMid ++ [Fw.busy Fw.cm1Frame])
            (Fw.run (Fw.fourPre ++ [Fw.busy Fw.cm1Frame]) Fw.boot))) ∧
        (Fw.run (Fw.fourPre ++ [Fw.busy Fw.cm1Frame] ++ Fw.fourMid ++ [Fw.busy Fw.cm1Frame]) Fw.boot).cycles = 0) ∧
      ((Fw.busy Fw.cm1Frame).rx.getD 0 0 = CM2 → 2 < Fw.boot.txBuf.length →
        (Fw.run (Fw.fourPre ++ [Fw.busy Fw.cm1Frame] ++ Fw.fourMid ++ [Fw.busy Fw.cm1Frame]) Fw.boot).txBuf.getD 1 0
          = Fw.read_inputs (Fw.busy Fw.cm1Frame) ∧
        (Fw.run (Fw.fourPre ++ [Fw.busy Fw.cm1Frame] ++ Fw.fourMid ++ [Fw.busy Fw.cm1Frame]) Fw.boot).txBuf.getD 2 0
          = toWord (Fw.run (Fw.fourPre ++ [Fw.busy Fw.cm1Frame]) Fw.boot).j) ∧
      (∀ (i : Fw.Input) (g : Fw.State),
        (Fw.main_loop i g).cycles
            = (if g.spi_data_ready = true ∧ i.rx.getD 0 0 = CM1 then 0
                else if g.last_cmd = CM1 then wrap32 (g.cycles + 1) else g.cycles) ∧
          (Fw.main_loop i g).j
            = (if g.spi_data_ready = true ∧ i.rx.getD 0 0 = CM1 then
                (if g.last_cmd = CM1 then wrap32 (g.cycles + 1) else g.cycles)
                else g.j) ∧
          (Fw.main_loop i g).last_cmd
            = (if g.spi_data_ready = true then i.rx.getD 0 0 else g.last_cmd) ∧
          (Fw.main_loop i g).spi_data_ready = i.CHBCIF) ∧
      (∀ (i : Fw.Input) (g : Fw.State), g.spi_data_ready = true → i.rx.getD 0 0 = CM2 →
        2 < g.txBuf.length →
        (Fw.main_loop i g).txBuf.getD 1 0 = Fw.read_inputs i ∧
        (Fw.main_loop i g).txBuf.getD 2 0 = toWord g.j) :=
  ⟨by decide,
    elapsed_cycle_report Fw.boot Fw.fourPre Fw.fourMid (Fw.busy Fw.cm1Frame) (Fw.busy Fw.cm1Frame)
      (by decide) (by decide) (by decide) (by decide)⟩

theorem four_frames_run :
    Fw.dispatched (Fw.fourPre ++ [Fw.busy Fw.cm1Frame] ++ Fw.fourMid ++ [Fw.busy Fw.cm1Frame])
        Fw.boot
      = [none, some CM1, none, some CM2, none, some TST, none, some CM1] ∧
      Fw.counted (Fw.dispatched (Fw.fourMid ++ [Fw.busy Fw.cm1Frame])
            (Fw.run (Fw.fourPre ++ [Fw.busy Fw.cm1Frame]) Fw.boot)) = 2 ∧
      (Fw.run (Fw.fourPre ++ [Fw.busy Fw.cm1Frame] ++ Fw.fourMid ++ [Fw.busy Fw.cm1Frame]) Fw.boot).j = 2 ∧
      (Fw.run (Fw.fourPre ++ [Fw.busy Fw.cm1Frame] ++ Fw.fourMid ++ [Fw.busy Fw.cm1Frame]) Fw.boot).cycles = 0 := by
  decide

end PiCnc
